import Mathlib

/-! Verification of the competition/raffle ingestion pipeline.

Shallow embedding of the Python sources:
  * `src/scraper/utils.py`   — `normalize_ticket_metrics`, `parse_countdown_text`
  * `src/dateutil/parser.py` — simplified `dateutil.parser.parse`
  * `src/scripts/update_raffles.py` — `_compute_odds`, `_parse_datetime`,
    `_ensure_deadline`, and its `run_ingestion` prune step
  * `src/raffles/db.py` — `prune_stale`
  * `src/app/ingest.py`, `src/app/db.py` — `ingest_all`, `upsert_raffles`,
    `prune_missing`, `serialize_raffle`
  * `src/scrapers/playwright_fetcher.py` — `PlaywrightFetcher.fetch`

Conventions of the embedding:
  * Python `int` is `Int`; Python `float` is idealised as exact arithmetic
    (`ℚ` where only field operations occur, `ℝ` where `math.log` appears).
    Where a claim is about raising behaviour rather than computed values,
    the relevant numeric bounds are modelled exactly: the `datetime` year
    range 1–9999 (`addTimedelta`), the `timedelta` magnitude bound
    (`mkTimedelta`), and the float-range `OverflowError` of `int / int`
    division (`trueDiv`), each feeding a `..._checked` variant of the
    affected function.
  * Fallible Python code returns `Except PyErr`; a `try/except` block becomes
    a `match` on that result.
  * `datetime` values are a wall-clock second count since 1970-01-01 paired
    with an optional UTC offset (`none` = naive); microseconds are not
    modelled (the embedded call sites truncate or never produce them).
  * Real time (`datetime.now`, `time.time`) is passed in as an explicit
    parameter.
-/

/-- Python exception values relevant to the embedded code. -/
inductive PyErr where
  | valueError (msg : String)
  | overflowError
  | zeroDivisionError
deriving Repr, DecidableEq

namespace Py

/-- A Python `datetime`: `wall` counts the seconds since 1970-01-01 00:00:00
as read on the face of the value (its own calendar/clock fields), `tz` is the
UTC offset of its `tzinfo` in seconds (`none` = naive datetime). -/
structure PyDateTime where
  wall : Int
  tz : Option Int
deriving Repr, DecidableEq

/-- Days from 1970-01-01 to the civil date `y-m-d` (proleptic Gregorian). -/
def daysFromCivil (y m d : Int) : Int :=
  let y := if m ≤ 2 then y - 1 else y
  let era := Int.fdiv y 400
  let yoe := y - era * 400
  let mp := if m > 2 then m - 3 else m + 9
  let doy := Int.fdiv (153 * mp + 2) 5 + d - 1
  let doe := yoe * 365 + Int.fdiv yoe 4 - Int.fdiv yoe 100 + doy
  era * 146097 + doe - 719468

/-- Civil date `(y, m, d)` of a day count since 1970-01-01. -/
def civilFromDays (z : Int) : Int × Int × Int :=
  let z := z + 719468
  let era := Int.fdiv z 146097
  let doe := z - era * 146097
  let yoe := Int.fdiv (doe - Int.fdiv doe 1460 + Int.fdiv doe 36524 - Int.fdiv doe 146096) 365
  let y := yoe + era * 400
  let doy := doe - (365 * yoe + Int.fdiv yoe 4 - Int.fdiv yoe 100)
  let mp := Int.fdiv (5 * doy + 2) 153
  let d := doy - Int.fdiv (153 * mp + 2) 5 + 1
  let m := if mp < 10 then mp + 3 else mp - 9
  (if m ≤ 2 then y + 1 else y, m, d)

/-- Build a datetime from calendar fields and an optional UTC offset. -/
def mkDateTime (y mo d h mi s : Int) (tz : Option Int) : PyDateTime :=
  ⟨daysFromCivil y mo d * 86400 + h * 3600 + mi * 60 + s, tz⟩

/-- Python `datetime + timedelta(seconds=n)`: shifts the wall clock, keeps
`tzinfo`.  This form is unbounded; Python's `datetime` range check (years
1–9999, raising `OverflowError`) is modelled by `addTimedelta` below, which
the raising-behaviour analysis uses.  The unbounded form appears only in
value-level statements whose inputs stay in range. -/
def PyDateTime.addSeconds (dt : PyDateTime) (n : Int) : PyDateTime :=
  ⟨dt.wall + n, dt.tz⟩

/-- Wall-clock second count of `datetime.min` (0001-01-01 00:00:00). -/
def datetimeMinWall : Int :=
  daysFromCivil 1 1 1 * 86400

/-- Wall-clock second count of `datetime.max` at second granularity
(9999-12-31 23:59:59; the .999999 microseconds are not modelled). -/
def datetimeMaxWall : Int :=
  daysFromCivil 9999 12 31 * 86400 + 86399

/-- Python `timedelta(days=.., hours=.., minutes=.., seconds=..)`: the total
seconds of the duration, or the constructor's `OverflowError` when the
normalized day count leaves `[-999999999, 999999999]` — at second
granularity, when the total leaves
`[-999999999 * 86400, 999999999 * 86400 + 86399]`. -/
def mkTimedelta (days hours minutes seconds : Int) : Except PyErr Int :=
  let total := 86400 * days + 3600 * hours + 60 * minutes + seconds
  if total < -999999999 * 86400 ∨ 999999999 * 86400 + 86399 < total then
    .error .overflowError
  else .ok total

/-- Python `datetime + timedelta` with the range check of `datetime.__add__`:
`OverflowError` when the resulting calendar value leaves years 1–9999
(checked on the wall-clock fields, independent of `tzinfo`). -/
def PyDateTime.addTimedelta (dt : PyDateTime) (secs : Int) : Except PyErr PyDateTime :=
  let w := dt.wall + secs
  if w < datetimeMinWall ∨ datetimeMaxWall < w then .error .overflowError
  else .ok ⟨w, dt.tz⟩

/-- Python `datetime.replace(tzinfo=...)`: swaps the offset, keeps the wall clock. -/
def PyDateTime.replaceTz (dt : PyDateTime) (tz : Option Int) : PyDateTime :=
  ⟨dt.wall, tz⟩

/-- Python `datetime.astimezone(timezone.utc)` for an aware value: same instant,
offset `0`.  (The embedded call sites only apply it to aware values; a naive
value is returned unchanged, a case their guards make unreachable.) -/
def PyDateTime.astimezoneUTC (dt : PyDateTime) : PyDateTime :=
  match dt.tz with
  | some off => ⟨dt.wall - off, some 0⟩
  | none => dt

/-- Python `datetime.timestamp()` for an aware value: seconds since the epoch. -/
def PyDateTime.timestamp (dt : PyDateTime) : Int :=
  match dt.tz with
  | some off => dt.wall - off
  | none => dt.wall

/-- Left-pad the decimal rendering of a non-negative integer to `w` digits. -/
def padNum (w : Nat) (n : Int) : String :=
  let s := toString n.natAbs
  let pad := String.mk (List.replicate (w - s.length) '0')
  pad ++ s

/-- Render a UTC offset the way `datetime.isoformat` does (`+HH:MM`/`-HH:MM`). -/
def offsetSuffix (off : Int) : String :=
  let sign := if off < 0 then "-" else "+"
  let a := off.natAbs
  sign ++ padNum 2 ((a / 3600 : Nat) : Int) ++ ":" ++ padNum 2 (((a % 3600) / 60 : Nat) : Int)

/-- Python `datetime.isoformat()`: `YYYY-MM-DDTHH:MM:SS` plus the offset suffix for
an aware value (microseconds are always zero in this model). -/
def PyDateTime.isoformat (dt : PyDateTime) : String :=
  let days := Int.fdiv dt.wall 86400
  let secs := dt.wall - days * 86400
  let (y, m, d) := civilFromDays days
  let core :=
    padNum 4 y ++ "-" ++ padNum 2 m ++ "-" ++ padNum 2 d ++ "T" ++
    padNum 2 (Int.fdiv secs 3600) ++ ":" ++ padNum 2 (Int.fdiv (secs % 3600) 60) ++ ":" ++
    padNum 2 (secs % 60)
  match dt.tz with
  | none => core
  | some off => core ++ offsetSuffix off

end Py

namespace PyStr

/-! Python string methods, implemented over `List Char` by structural recursion
(the library's `Substring`-based versions do not reduce definitionally, which
closed-term witnesses need).
-/

/-- Python `str.strip()`: drop leading and trailing whitespace. -/
def strip (s : String) : String :=
  ⟨(((s.data.dropWhile Char.isWhitespace).reverse.dropWhile Char.isWhitespace).reverse)⟩

/-- Python `str.lower()` (ASCII view, all the embedded code needs). -/
def lower (s : String) : String :=
  ⟨s.data.map Char.toLower⟩

/-- Is `suf` a suffix of `cs`? -/
def listEndsWith (cs suf : List Char) : Bool :=
  decide (cs.drop (cs.length - suf.length) = suf)

/-- Python `str.endswith(suffix)`. -/
def endswith (s suffix : String) : Bool :=
  listEndsWith s.data suffix.data

/-- Python slicing `str[:-n]` for `n ≥ 0`: drop the last `n` characters. -/
def dropRight (s : String) (n : Nat) : String :=
  ⟨s.data.take (s.data.length - n)⟩

/-- Does `pre` occur literally at the head of `cs`? -/
def startsWithChars (pre : List Char) (cs : List Char) : Bool :=
  match pre, cs with
  | [], _ => true
  | _ :: _, [] => false
  | p :: ps, c :: rest => p = c && startsWithChars ps rest

/-- Left-to-right non-overlapping replacement, fuelled by the input length. -/
def replaceFrom (pat rep : List Char) : Nat → List Char → List Char
  | 0, cs => cs
  | _ + 1, [] => []
  | fuel + 1, c :: rest =>
    if pat ≠ [] && startsWithChars pat (c :: rest) then
      rep ++ replaceFrom pat rep fuel ((c :: rest).drop pat.length)
    else c :: replaceFrom pat rep fuel rest

/-- Python `str.replace(old, new)`. -/
def replace (s pat rep : String) : String :=
  ⟨replaceFrom pat.data rep.data s.data.length s.data⟩

end PyStr

namespace Dateutil

open Py

/-- Maximal digit prefix (`\d+` without backtracking, which is equivalent here
because every use is followed by whitespace or a letter, never a digit). -/
def takeDigits : List Char → List Char × List Char
  | [] => ([], [])
  | c :: rest =>
    if c.isDigit then
      let (ds, r) := takeDigits rest
      (c :: ds, r)
    else ([], c :: rest)

/-- Numeric value of a digit string. -/
def digitsToNat (ds : List Char) : Nat :=
  ds.foldl (fun a c => a * 10 + (c.toNat - 48)) 0

/-- Regex `\s*`: drop a maximal whitespace prefix. -/
def skipSpaces : List Char → List Char
  | [] => []
  | c :: rest => if c.isWhitespace then skipSpaces rest else c :: rest

/-- Regex `\w` of the `re` module (ASCII view): letters, digits, underscore. -/
def isWordChar (c : Char) : Bool :=
  c.isAlpha || c.isDigit || c = '_'

/-- Regex `\w*`: drop a maximal word-character prefix. -/
def gobbleWord : List Char → List Char
  | [] => []
  | c :: rest => if isWordChar c then gobbleWord rest else c :: rest

/-- Parse exactly `n` digits. -/
def parseFixedNat (n : Nat) (cs : List Char) : Option (Nat × List Char) :=
  let pre := cs.take n
  if pre.length = n && pre.all Char.isDigit then some (digitsToNat pre, cs.drop n)
  else none

/-- Parse one or two digits, longest first (the regex `\d{1,2}` against a
non-digit continuation). -/
def parseOneTwo (cs : List Char) : Option (Nat × List Char) :=
  match cs with
  | a :: b :: rest =>
    if a.isDigit && b.isDigit then some (digitsToNat [a, b], rest)
    else if a.isDigit then some (digitsToNat [a], b :: rest)
    else none
  | [a] => if a.isDigit then some (digitsToNat [a], []) else none
  | [] => none

/-- Expect a literal character. -/
def expectChar (c : Char) : List Char → Option (List Char)
  | x :: rest => if x = c then some rest else none
  | [] => none

/-- Proleptic Gregorian leap year (`calendar.isleap`). -/
def isLeap (y : Int) : Bool :=
  (y % 4 = 0 && y % 100 ≠ 0) || y % 400 = 0

/-- Length of a month, as `datetime` validates day-of-month. -/
def daysInMonth (y m : Int) : Int :=
  if m = 2 then (if isLeap y then 29 else 28)
  else if m = 4 || m = 6 || m = 9 || m = 11 then 30
  else 31

/-- Python `datetime(y, m, d)` field validation. -/
def validDate (y m d : Int) : Bool :=
  1 ≤ m && m ≤ 12 && 1 ≤ d && d ≤ daysInMonth y m

/-- Python `datetime` time-field validation. -/
def validTime (h mi s : Int) : Bool :=
  0 ≤ h && h ≤ 23 && 0 ≤ mi && mi ≤ 59 && 0 ≤ s && s ≤ 59

/-- A UTC offset `+HH:MM` / `-HH:MM` (or `Z`), in seconds, as accepted by
`fromisoformat` and by `strptime`'s `%z`. -/
def parseOffset (cs : List Char) : Option (Int × List Char) := do
  match cs with
  | 'Z' :: rest => some (0, rest)
  | sign :: rest =>
    if sign = '+' || sign = '-' then do
      let (hh, cs) ← parseFixedNat 2 rest
      let cs ← (match expectChar ':' cs with
        | some cs2 => some cs2
        | none => some cs)
      let (mm, cs) ← parseFixedNat 2 cs
      let mag : Int := hh * 3600 + mm * 60
      some (if sign = '-' then -mag else mag, cs)
    else none
  | [] => none

/-- Python `datetime.fromisoformat`: `YYYY-MM-DD`, optionally a one-character
separator (`T` or space) and `HH:MM[:SS]`, optionally a UTC offset. -/
def fromisoformat (s : String) : Option PyDateTime := do
  let cs := s.toList
  let (y, cs) ← parseFixedNat 4 cs
  let cs ← expectChar '-' cs
  let (mo, cs) ← parseFixedNat 2 cs
  let cs ← expectChar '-' cs
  let (d, cs) ← parseFixedNat 2 cs
  if !validDate y mo d then none else
  match cs with
  | [] => some (mkDateTime y mo d 0 0 0 none)
  | sep :: rest =>
    if sep ≠ 'T' && sep ≠ ' ' then none else do
    let (h, cs) ← parseFixedNat 2 rest
    let cs ← expectChar ':' cs
    let (mi, cs) ← parseFixedNat 2 cs
    let (sec, cs) ← (match cs with
      | ':' :: rest2 => parseFixedNat 2 rest2
      | _ => some (0, cs))
    if !validTime h mi sec then none else
    match cs with
    | [] => some (mkDateTime y mo d h mi sec none)
    | _ => do
      let (off, cs) ← parseOffset cs
      if cs = [] then some (mkDateTime y mo d h mi sec (some off)) else none

/-- Format directives appearing in `_PATTERNS` of `src/dateutil/parser.py`. -/
inductive FmtTok where
  | Y   -- %Y, four digits
  | y2  -- %y, two digits (00-68 ⇒ 2000s, 69-99 ⇒ 1900s)
  | m | d | H | M | S  -- one or two digits each
  | z   -- UTC offset
  | lit (c : Char)
deriving Repr, DecidableEq

/-- Intermediate field set of a `strptime` run (defaults 1900-01-01 00:00:00). -/
structure TimeFields where
  y : Int := 1900
  mo : Int := 1
  d : Int := 1
  h : Int := 0
  mi : Int := 0
  s : Int := 0
  tz : Option Int := none

/-- One directive of `strptime`. -/
def stepTok (tok : FmtTok) (cs : List Char) (acc : TimeFields) :
    Option (TimeFields × List Char) :=
  match tok with
  | .Y => (parseFixedNat 4 cs).map fun (v, cs) => ({ acc with y := v }, cs)
  | .y2 =>
    (parseFixedNat 2 cs).map fun (v, cs) =>
      ({ acc with y := if v ≤ 68 then 2000 + (v : Int) else 1900 + (v : Int) }, cs)
  | .m => (parseOneTwo cs).map fun (v, cs) => ({ acc with mo := v }, cs)
  | .d => (parseOneTwo cs).map fun (v, cs) => ({ acc with d := v }, cs)
  | .H => (parseOneTwo cs).map fun (v, cs) => ({ acc with h := v }, cs)
  | .M => (parseOneTwo cs).map fun (v, cs) => ({ acc with mi := v }, cs)
  | .S => (parseOneTwo cs).map fun (v, cs) => ({ acc with s := v }, cs)
  | .z => (parseOffset cs).map fun (v, cs) => ({ acc with tz := some v }, cs)
  | .lit c => (expectChar c cs).map fun cs => (acc, cs)

/-- Run a whole format over the input. -/
def runFmt : List FmtTok → List Char → TimeFields → Option TimeFields
  | [], [], acc => some acc
  | [], _ :: _, _ => none
  | tok :: toks, cs, acc =>
    match stepTok tok cs acc with
    | some (acc, cs) => runFmt toks cs acc
    | none => none

/-- Python `datetime.strptime(s, fmt)` for the fixed formats used by the parser. -/
def strptime (fmt : List FmtTok) (s : String) : Option PyDateTime := do
  let tf ← runFmt fmt s.toList {}
  if validDate tf.y tf.mo tf.d && validTime tf.h tf.mi tf.s then
    some (mkDateTime tf.y tf.mo tf.d tf.h tf.mi tf.s tf.tz)
  else none

/-- The list `_PATTERNS` of `src/dateutil/parser.py`, in order. -/
def patterns : List (List FmtTok) :=
  [ [.Y, .lit '-', .m, .lit '-', .d, .lit 'T', .H, .lit ':', .M, .lit ':', .S, .z],
    [.Y, .lit '-', .m, .lit '-', .d, .lit 'T', .H, .lit ':', .M, .lit ':', .S],
    [.Y, .lit '-', .m, .lit '-', .d, .lit ' ', .H, .lit ':', .M, .lit ':', .S],
    [.Y, .lit '-', .m, .lit '-', .d, .lit ' ', .H, .lit ':', .M],
    [.d, .lit '/', .m, .lit '/', .Y, .lit ' ', .H, .lit ':', .M],
    [.d, .lit '-', .m, .lit '-', .Y, .lit ' ', .H, .lit ':', .M],
    [.m, .lit '/', .d, .lit '/', .Y, .lit ' ', .H, .lit ':', .M] ]

/-- Try a list of formats in order, first success wins. -/
def strptimeFirst (fmts : List (List FmtTok)) (s : String) : Option PyDateTime :=
  match fmts with
  | [] => none
  | fmt :: rest =>
    match strptime fmt s with
    | some dt => some dt
    | none => strptimeFirst rest s

/-- Embedding of `_normalise`: strip, and rewrite a trailing `Z` to `+00:00`. -/
def normalise (text : String) : String :=
  let text := PyStr.strip text
  if PyStr.endswith text "Z" then PyStr.dropRight text 1 ++ "+00:00" else text

/-- The fuzzy ISO search `(\d{4}-\d{2}-\d{2})(?:[ T](\d{2}:\d{2}(?::\d{2})?))?`
at one position: returns the two captured fragments. -/
def isoShapedAt (cs : List Char) : Option (List Char × Option (List Char)) := do
  let (_, r) ← parseFixedNat 4 cs
  let r ← expectChar '-' r
  let (_, r) ← parseFixedNat 2 r
  let r ← expectChar '-' r
  let (_, r) ← parseFixedNat 2 r
  let datePart := cs.take (cs.length - r.length)
  let timePart : Option (List Char) := do
    match r with
    | sep :: rest =>
      if sep = ' ' || sep = 'T' then do
        let (_, t) ← parseFixedNat 2 rest
        let t ← expectChar ':' t
        let (_, t) ← parseFixedNat 2 t
        let t : List Char :=
          match t with
          | ':' :: rr =>
            match parseFixedNat 2 rr with
            | some (_, t2) => t2
            | none => t
          | _ => t
        some (rest.take (rest.length - t.length))
      else none
    | [] => none
  some (datePart, timePart)

/-- Scan positions left to right for the fuzzy ISO date shape (`re.search`). -/
def searchIsoShaped : List Char → Option (List Char × Option (List Char))
  | [] => isoShapedAt []
  | cs@(_ :: tl) =>
    match isoShapedAt cs with
    | some r => some r
    | none => searchIsoShaped tl

/-- The alternative fuzzy date search: one or two digits, a slash-or-dash
separator, one or two digits, another separator, then two to four digits;
greedy on each digit run, longest first with backtracking. -/
def altShapedAt (cs : List Char) : Option (List Char) :=
  let step : List Char → Option (List Char) := fun r =>
    match r with
    | s :: rest => if s = '/' || s = '-' then some rest else none
    | [] => none
  -- candidate remainders after consuming between `lo` and `hi` digits, longest first
  let digitRun (lo hi : Nat) (cs0 : List Char) : List (List Char) :=
    (List.range (hi + 1 - lo)).filterMap fun k =>
      match parseFixedNat (hi - k) cs0 with
      | some (_, rest) => some rest
      | none => none
  let candidates :=
    (digitRun 1 2 cs).flatMap fun r1 =>
      (step r1).elim [] fun r1 =>
        (digitRun 1 2 r1).flatMap fun r2 =>
          (step r2).elim [] fun r2 =>
            digitRun 2 4 r2
  match candidates with
  | rest :: _ => some (cs.take (cs.length - rest.length))
  | [] => none

/-- Scan emulating `re.search` for the alternative date shape. -/
def searchAltShaped : List Char → Option (List Char)
  | [] => altShapedAt []
  | cs@(_ :: tl) =>
    match altShapedAt cs with
    | some r => some r
    | none => searchAltShaped tl

/-- The time search `(\d{1,2}:\d{2}(?::\d{2})?)` at one position. -/
def timeShapedAt (cs : List Char) : Option (List Char) := do
  let (_, r1) ← parseOneTwo cs
  let r1 ← expectChar ':' r1
  let (_, r2) ← parseFixedNat 2 r1
  let r3 : List Char :=
    match r2 with
    | ':' :: rr =>
      match parseFixedNat 2 rr with
      | some (_, r3) => r3
      | none => r2
    | _ => r2
  some (cs.take (cs.length - r3.length))

/-- Scan emulating `re.search` for the time shape. -/
def searchTimeShaped : List Char → Option (List Char)
  | [] => timeShapedAt []
  | cs@(_ :: tl) =>
    match timeShapedAt cs with
    | some r => some r
    | none => searchTimeShaped tl

/-- Formats tried on the alternative fuzzy extraction, in order. -/
def altPatterns : List (List FmtTok) :=
  [ [.d, .lit '/', .m, .lit '/', .Y, .lit ' ', .H, .lit ':', .M],
    [.d, .lit '-', .m, .lit '-', .Y, .lit ' ', .H, .lit ':', .M],
    [.m, .lit '/', .d, .lit '/', .Y, .lit ' ', .H, .lit ':', .M],
    [.d, .lit '/', .m, .lit '/', .y2, .lit ' ', .H, .lit ':', .M] ]

/-- Embedding of `parse` (src/dateutil/parser.py): `fromisoformat` on the
normalised text, then the fixed `strptime` patterns, then — under `fuzzy` —
the ISO-shaped and day/month-shaped extractions re-run through `strptime`. -/
def parse (value : String) (fuzzy : Bool) : Except PyErr PyDateTime :=
  if value = "" then .error (.valueError "Cannot parse empty date string")
  else
    let value := PyStr.strip value
    let cleaned := normalise value
    match fromisoformat cleaned with
    | some dt => .ok dt
    | none =>
      match strptimeFirst patterns cleaned with
      | some dt => .ok dt
      | none =>
        if fuzzy then
          let viaIso : Option PyDateTime :=
            match searchIsoShaped value.toList with
            | some (datePart, timePart) =>
              let timePart := (timePart.getD "00:00".toList)
              strptimeFirst patterns
                (normalise (String.mk datePart ++ " " ++ String.mk timePart))
            | none => none
          match viaIso with
          | some dt => .ok dt
          | none =>
            match searchAltShaped value.toList with
            | some datePart =>
              let timePart := (searchTimeShaped value.toList).getD "00:00".toList
              match strptimeFirst altPatterns
                  (String.mk datePart ++ " " ++ String.mk timePart) with
              | some dt => .ok dt
              | none => .error (.valueError "Could not parse date string")
            | none => .error (.valueError "Could not parse date string")
        else .error (.valueError "Could not parse date string")

end Dateutil

namespace Scraper

/-- Result record of `normalize_ticket_metrics`
(`NormalizedTicketMetrics` in `src/scraper/utils.py`). -/
structure NormalizedTicketMetrics where
  sold : Option Int
  remaining : Option Int
  total : Option Int
  sold_ratio : Option ℚ
deriving Repr, DecidableEq

/-- Python float division: raises `ZeroDivisionError` on a zero divisor.
This form keeps the quotient exact and unbounded; the `OverflowError` that
`int / int` raises when the quotient exceeds the float range is modelled by
`trueDiv` below, which the raising-behaviour analysis uses. -/
def floatDiv (a b : ℚ) : Except PyErr ℚ :=
  if b = 0 then .error .zeroDivisionError else .ok (a / b)

/-- Python `int / int` true division with both of its exceptions:
`ZeroDivisionError` on a zero divisor, and `OverflowError` when the correctly
rounded quotient reaches `2^1024` — i.e. when the exact quotient's magnitude
is at least `2^1024 - 2^970`, half an ulp above the largest finite float.
The magnitude test `|a/b| ≥ 2^1024 - 2^970` is phrased over the numerators:
`|a| ≥ (2^1024 - 2^970) * |b|`, which is equivalent for `b ≠ 0` since the
bound is an integer. -/
def trueDiv (a b : Int) : Except PyErr ℚ :=
  if b = 0 then .error .zeroDivisionError
  else if (2 ^ 1024 - 2 ^ 970) * b.natAbs ≤ a.natAbs then .error .overflowError
  else .ok ((a : ℚ) / (b : ℚ))

/-- First statement of `normalize_ticket_metrics`:
`if total is None: if sold is not None and remaining is not None: total = sold + remaining`. -/
def inferTotal (total sold remaining : Option Int) : Option Int :=
  match total, sold, remaining with
  | none, some s, some r => some (s + r)
  | t, _, _ => t

/-- Second statement: `if sold is None and total is not None and remaining is not None:
sold = max(total - remaining, 0)`. -/
def inferSold (sold total remaining : Option Int) : Option Int :=
  match sold, total, remaining with
  | none, some t, some r => some (max (t - r) 0)
  | s, _, _ => s

/-- Third statement: `if remaining is None and total is not None and sold is not None:
remaining = max(total - sold, 0)`. -/
def inferRemaining (remaining total sold : Option Int) : Option Int :=
  match remaining, total, sold with
  | none, some t, some s => some (max (t - s) 0)
  | r, _, _ => r

/-- Fourth statement: `if sold is not None and total: sold_ratio = min(max(sold/total, 0.0), 1.0)`.
The guard is Python truthiness of `total`: present and non-zero. -/
def soldRatio (sold total : Option Int) : Except PyErr (Option ℚ) :=
  match sold, total with
  | some s, some t =>
      if t ≠ 0 then (floatDiv (s : ℚ) (t : ℚ)).map (fun q => some (min (max q 0) 1))
      else .ok none
  | _, _ => .ok none

/-- Embedding of `normalize_ticket_metrics` (src/scraper/utils.py, lines 82-99),
with every Python statement kept in source order via the helpers above. -/
def normalize_ticket_metrics (total sold remaining : Option Int) :
    Except PyErr NormalizedTicketMetrics :=
  let total1 := inferTotal total sold remaining
  let sold1 := inferSold sold total1 remaining
  let remaining1 := inferRemaining remaining total1 sold1
  (soldRatio sold1 total1).map fun ratio =>
    ⟨sold1, remaining1, total1, ratio⟩

/-- The value computed by `normalize_ticket_metrics` (total function form,
justified by `soldRatio_ok` below). -/
def normalizeRun (total sold remaining : Option Int) : NormalizedTicketMetrics :=
  match normalize_ticket_metrics total sold remaining with
  | .ok m => m
  | .error _ => ⟨none, none, none, none⟩

/-- Predicate: `total == sold + remaining` whenever all three fields are non-null. -/
def sumConsistent (m : NormalizedTicketMetrics) : Prop :=
  ∀ t s r : Int, m.total = some t → m.sold = some s → m.remaining = some r → t = s + r

open Py Dateutil

/-- The four optional captures of the countdown pattern. -/
structure CountdownGroups where
  days : Option Nat
  hours : Option Nat
  minutes : Option Nat
  seconds : Option Nat
deriving Repr, DecidableEq

/-- All four captures absent (`not any(match.groupdict().values())`). -/
def CountdownGroups.allAbsent (g : CountdownGroups) : Bool :=
  g.days.isNone && g.hours.isNone && g.minutes.isNone && g.seconds.isNone

/-- Value of `timedelta(days=.., hours=.., minutes=.., seconds=..)` in seconds, with
absent captures counting as `0` (`int(match.group(..) or 0)`).  This form is
unbounded; the constructor's magnitude bound and its `OverflowError` are
modelled by `Py.mkTimedelta`, which the raising-behaviour analysis uses. -/
def CountdownGroups.durationSeconds (g : CountdownGroups) : Int :=
  86400 * (g.days.getD 0 : Int) + 3600 * (g.hours.getD 0 : Int) +
    60 * (g.minutes.getD 0 : Int) + (g.seconds.getD 0 : Int)

/-- The same `timedelta(...)` constructor call with its magnitude bound
(`Py.mkTimedelta`), for the raising-behaviour analysis. -/
def CountdownGroups.timedeltaChecked (g : CountdownGroups) : Except PyErr Int :=
  Py.mkTimedelta (g.days.getD 0 : Int) (g.hours.getD 0 : Int)
    (g.minutes.getD 0 : Int) (g.seconds.getD 0 : Int)

/-- One optional unit group `(?:(\d+)\s*(?:kw1|kw2|..)\w*)?` of the countdown
pattern: a digit run, optional whitespace, one of the (lower-case) keywords,
then a greedy word-character run.  On failure nothing is consumed.  (The
regex never needs to backtrack into `\d+` or `\s*` here: shorter digit or
space runs leave a digit or space where a letter is required.) -/
def tryUnit (kws : List String) (cs : List Char) : Option Nat × List Char :=
  let (ds, rest) := takeDigits cs
  if ds.isEmpty then (none, cs)
  else
    let rest2 := skipSpaces rest
    match kws.find? (fun k => PyStr.startsWithChars k.toList rest2) with
    | some k => (some (digitsToNat ds), gobbleWord (rest2.drop k.length))
    | none => (none, cs)

/-- The whole countdown pattern at one position: the four optional unit
groups, each pair separated by `\s*`, against a lower-cased input
(the pattern is compiled with `re.IGNORECASE`). -/
def countdownGroupsAt (cs : List Char) : CountdownGroups :=
  let (d, cs) := tryUnit ["day", "d"] cs
  let cs := skipSpaces cs
  let (h, cs) := tryUnit ["hour", "h"] cs
  let cs := skipSpaces cs
  let (m, cs) := tryUnit ["minute", "min", "m"] cs
  let cs := skipSpaces cs
  let (s, _) := tryUnit ["second", "sec", "s"] cs
  ⟨d, h, m, s⟩

/-- The `finditer` loop of `parse_countdown_text`: the pattern matches at
every position (all groups optional), matches with no captures are skipped,
and the first match with a capture is returned. -/
def findCountdown : List Char → Option CountdownGroups
  | [] =>
    let g := countdownGroupsAt []
    if g.allAbsent then none else some g
  | cs@(_ :: tl) =>
    let g := countdownGroupsAt cs
    if g.allAbsent then findCountdown tl else some g

/-- The absolute branch of `parse_countdown_text` (src/scraper/utils.py,
lines 51-56): `date_parser.parse(value, fuzzy=True)`, assigning UTC to a
naive result. -/
def resolveAbsolute (value : String) : Except PyErr PyDateTime :=
  (Dateutil.parse value true).map fun parsed =>
    if parsed.tz = none then parsed.replaceTz (some 0) else parsed

/-- Embedding of `parse_countdown_text` (src/scraper/utils.py, lines 43-79).
`wallNow` stands for `datetime.now(timezone.utc)`, consulted when the `now`
keyword argument is `None`. -/
def parse_countdown_text (value : Option String) (now : Option PyDateTime)
    (wallNow : PyDateTime) : Except PyErr (Option String) :=
  match value with
  | none => .ok none
  | some v =>
    let v := PyStr.strip v
    if v = "" then .ok none
    else
      match resolveAbsolute v with
      | .ok parsed => .ok (some parsed.isoformat)
      | .error _ =>
        let now := now.getD wallNow
        match findCountdown (PyStr.lower v).toList with
        | some g => .ok (some ((now.addSeconds g.durationSeconds).isoformat))
        | none => .ok none

/-- The ratio statement of `normalize_ticket_metrics` with Python's numeric
bounds: same guard as `soldRatio`, but the division is `trueDiv`, which also
raises `OverflowError` when `sold / total` exceeds the float range. -/
def soldRatioChecked (sold total : Option Int) : Except PyErr (Option ℚ) :=
  match sold, total with
  | some s, some t =>
      if t ≠ 0 then (trueDiv s t).map (fun q => some (min (max q 0) 1))
      else .ok none
  | _, _ => .ok none

/-- Embedding of `normalize_ticket_metrics` with Python's numeric bounds
modelled: identical to `normalize_ticket_metrics` except that the ratio
division can raise `OverflowError`.  This version decides the function's
raising behaviour; the unchecked version stands in the value-level claims. -/
def normalize_ticket_metrics_checked (total sold remaining : Option Int) :
    Except PyErr NormalizedTicketMetrics :=
  let total1 := inferTotal total sold remaining
  let sold1 := inferSold sold total1 remaining
  let remaining1 := inferRemaining remaining total1 sold1
  (soldRatioChecked sold1 total1).map fun ratio =>
    ⟨sold1, remaining1, total1, ratio⟩

/-- Embedding of `parse_countdown_text` with Python's numeric bounds
modelled: identical to `parse_countdown_text` except that the countdown
branch builds the `timedelta` through `Py.mkTimedelta` and shifts `now`
through `addTimedelta`; both sit outside the `try` block in the source
(src/scraper/utils.py, lines 68-77), so their `OverflowError` escapes
uncaught.  This version decides the function's raising behaviour. -/
def parse_countdown_text_checked (value : Option String) (now : Option PyDateTime)
    (wallNow : PyDateTime) : Except PyErr (Option String) :=
  match value with
  | none => .ok none
  | some v =>
    let v := PyStr.strip v
    if v = "" then .ok none
    else
      match resolveAbsolute v with
      | .ok parsed => .ok (some parsed.isoformat)
      | .error _ =>
        let now := now.getD wallNow
        match findCountdown (PyStr.lower v).toList with
        | some g =>
          match g.timedeltaChecked with
          | .error e => .error e
          | .ok secs =>
            match now.addTimedelta secs with
            | .error e => .error e
            | .ok dt => .ok (some dt.isoformat)
        | none => .ok none

end Scraper

namespace UpdateRaffles

/-- Odds fields set by `_compute_odds` on a `RaffleRecord`. -/
structure OddsResult where
  win_probability_single_ticket : Option ℝ
  min_tickets_for_half_chance : Option Int

/-- Embedding of `_compute_odds` (src/scripts/update_raffles.py, lines 58-71).
`if not total or total <= 0` collapses to `t ≤ 0` for a present integer `t`
(Python falsiness of `0` is subsumed by `t ≤ 0`); `math.log` is idealised as
`Real.log` on exact reals. -/
noncomputable def compute_odds (total : Option Int) : OddsResult :=
  match total with
  | none => ⟨none, none⟩
  | some t =>
    if t ≤ 0 then ⟨none, none⟩
    else
      let p : ℝ := 1 / (t : ℝ)
      let probability_of_not_winning : ℝ := 1 - p
      if probability_of_not_winning ≤ 0 then ⟨some p, some 1⟩
      else
        ⟨some p,
         some (max 1 ⌈Real.log (1/2) / Real.log probability_of_not_winning⌉)⟩

/-- The odds contract exactly as the claim states it: null outputs iff `total`
is null or `≤ 0`; otherwise probability `1/total`; `minTicketsForHalfChance`
is `1` when `total = 1` and `ceil (ln 0.5 / ln (1 - 1/total))` clamped to a
minimum of `1` when `total > 1`. -/
noncomputable def odds_spec (total : Option Int) : OddsResult :=
  match total with
  | none => ⟨none, none⟩
  | some t =>
    if t ≤ 0 then ⟨none, none⟩
    else if t = 1 then ⟨some (1 / (t : ℝ)), some 1⟩
    else
      ⟨some (1 / (t : ℝ)),
       some (max 1 ⌈Real.log (1/2) / Real.log (1 - 1 / (t : ℝ))⌉)⟩

open Py

/-- Embedding of `_parse_datetime` (src/scripts/update_raffles.py, lines
25-34), string case: strip, rewrite a trailing `Z` to `+00:00`, then
`datetime.fromisoformat`.  (A value that is already a `datetime` is returned
unchanged by the source; the embedded records carry strings.) -/
def parse_datetime (value : String) : Except PyErr PyDateTime :=
  let text := PyStr.strip value
  let text := if PyStr.endswith text "Z" then PyStr.dropRight text 1 ++ "+00:00" else text
  match Dateutil.fromisoformat text with
  | some dt => .ok dt
  | none => .error (.valueError "Unsupported datetime format")

/-- The deadline-relevant fields of `RaffleRecord` (src/raffles/models.py).
`metadata_deadline` stands for `metadata.get("deadline")`; the remaining
fields (name, ticket counts, odds) are not read or written by
`_ensure_deadline` and are elided. -/
structure RaffleRecord where
  source : String
  raffle_id : String
  deadline_ts : Option Int
  deadline_iso : Option String
  metadata_deadline : Option String
deriving Repr, DecidableEq

/-- Python truthiness of an optional string (`None` and `""` are falsy). -/
def strTruthy : Option String → Bool
  | none => false
  | some s => s ≠ ""

/-- Embedding of `_ensure_deadline` (src/scripts/update_raffles.py, lines
37-55): pick the deadline text (`deadline_iso`, else `metadata["deadline"]`),
parse it, force the result to UTC (naive ⇒ tagged UTC, aware ⇒ converted),
and write back `deadline_iso`/`deadline_ts`.  An unparseable value leaves the
record unchanged. -/
def ensure_deadline (record : RaffleRecord) : RaffleRecord :=
  let deadline_value : Option String :=
    if strTruthy record.deadline_iso then record.deadline_iso
    else if strTruthy record.metadata_deadline then record.metadata_deadline
    else none
  match deadline_value with
  | none => record
  | some dv =>
    match parse_datetime dv with
    | .error _ => record
    | .ok dt =>
      let deadline_dt := if dt.tz = none then dt.replaceTz (some 0) else dt.astimezoneUTC
      { record with
        deadline_iso := some deadline_dt.isoformat
        deadline_ts := some deadline_dt.timestamp }

end UpdateRaffles

namespace Raffles

/-- A row of the `raffles` table as `prune_stale` (src/raffles/db.py, lines
131-142) sees it: the identity key and `last_seen`.  `last_seen` is held as a
UTC instant (seconds); the SQL comparison of ISO-formatted UTC strings agrees
with the numeric order.  Columns not read by the delete are elided. -/
structure DbRow where
  source : String
  raffle_id : String
  last_seen : Int
deriving Repr, DecidableEq

/-- Embedding of `prune_stale`: `DELETE FROM raffles WHERE last_seen < ?`;
returns the surviving rows and the deleted count (`cursor.rowcount`). -/
def prune_stale (rows : List DbRow) (last_seen_before : Int) : List DbRow × Nat :=
  let kept := rows.filter fun r => !(r.last_seen < last_seen_before)
  (kept, rows.length - kept.length)

end Raffles

namespace App

open Py

/-- Structure `RaffleData` (src/app/scrapers/__init__.py). -/
structure RaffleData where
  source : String
  raffle_id : String
  title : String
  price : ℚ
  total_tickets : Int
  tickets_remaining : Int
  deadline : PyDateTime
deriving Repr, DecidableEq

/-- Embedding of `_normalize_raffle` (src/app/ingest.py, lines 19-35): a
naive deadline raises `ValueError`; otherwise the deadline is converted to
UTC.  (Microseconds, which the source zeroes, are not modelled.) -/
def normalize_raffle (raffle : RaffleData) : Except PyErr RaffleData :=
  if raffle.deadline.tz = none then
    .error (.valueError "naive datetime")
  else
    .ok { raffle with deadline := raffle.deadline.astimezoneUTC }

/-- A row of the app `raffles` table (src/app/db.py), i.e. the dictionary
built by `serialize_raffle`. -/
structure Row where
  source : String
  raffle_id : String
  title : String
  price : ℚ
  total_tickets : Int
  tickets_remaining : Int
  deadline_utc : String
  last_updated_utc : String
deriving Repr, DecidableEq

/-- Rendering `isoformat()` with the `+00:00` suffix rewritten to `Z`. -/
def zSuffix (s : String) : String :=
  PyStr.replace s "+00:00" "Z"

/-- Embedding of `serialize_raffle` (src/app/db.py, lines 152-172): rejects a
naive deadline, renders the UTC deadline and the `now` stamp with a `Z`
suffix.  `now` stands for `datetime.now(tz=timezone.utc)`. -/
def serialize_raffle (raffle : RaffleData) (now : PyDateTime) : Except PyErr Row :=
  if raffle.deadline.tz = none then
    .error (.valueError "deadline must be timezone-aware")
  else
    .ok ⟨raffle.source, raffle.raffle_id, raffle.title, raffle.price,
      raffle.total_tickets, raffle.tickets_remaining,
      zSuffix raffle.deadline.astimezoneUTC.isoformat,
      zSuffix now.isoformat⟩

/-- Key equality on `(source, raffle_id)`. -/
def rowKeyIs (r : Row) (key : String × String) : Bool :=
  r.source = key.1 && r.raffle_id = key.2

/-- Look a row up by key. -/
def findRow (rows : List Row) (key : String × String) : Option Row :=
  rows.find? (fun r => rowKeyIs r key)

/-- One `INSERT .. ON CONFLICT(source, raffle_id) DO UPDATE` statement. -/
def upsertRow (rows : List Row) (row : Row) : List Row :=
  if rows.any (fun r => rowKeyIs r (row.source, row.raffle_id)) then
    rows.map (fun r => if rowKeyIs r (row.source, row.raffle_id) then row else r)
  else rows ++ [row]

/-- Embedding of `Database.upsert_raffles` (src/app/db.py, lines 85-119). -/
def upsert_raffles (rows : List Row) (newRows : List Row) : List Row :=
  newRows.foldl upsertRow rows

/-- Embedding of `Database.prune_missing` (src/app/db.py, lines 120-139):
with no present keys, `DELETE FROM raffles`; otherwise delete every row whose
`(source, raffle_id)` is **not** among the present keys.  Returns the
survivors and the deleted count. -/
def prune_missing (rows : List Row) (present_keys : List (String × String)) :
    List Row × Nat :=
  match present_keys with
  | [] => ([], rows.length)
  | _ :: _ =>
    let kept := rows.filter fun r => present_keys.any (fun k => rowKeyIs r k)
    (kept, rows.length - kept.length)

/-- A scraper as `ingest_all` consumes it: its `source` name, the entries its
`run()` yields, and the exception it raises afterwards, if any (`none` for a
scraper that completes). -/
structure Scraper where
  source : String
  entries : List RaffleData
  failure : Option PyErr
deriving Repr, DecidableEq

/-- The `for raffle in scraper.run(): normalized.append(_normalize_raffle(raffle))`
loop body: entries normalized before the first normalization error, and that
error if one occurred. -/
def collectNormalized : List RaffleData → List RaffleData × Option PyErr
  | [] => ([], none)
  | e :: rest =>
    match normalize_raffle e with
    | .error err => ([], some err)
    | .ok ne =>
      let (tail, f) := collectNormalized rest
      (ne :: tail, f)

/-- Running one scraper inside the `try` block of `ingest_all`: the
normalized entries appended before any exception, and the exception (from
iteration or normalization) that the `except` clause catches. -/
def runScraper (sc : Scraper) : List RaffleData × Option PyErr :=
  let (entries, f) := collectNormalized sc.entries
  match f with
  | some err => (entries, some err)
  | none => (entries, sc.failure)

/-- The sources that failed in a run, in scraper order. -/
def failedSources (scrapers : List Scraper) : List String :=
  (scrapers.filter (fun sc => (runScraper sc).2 ≠ none)).map (·.source)

/-- All normalized entries pooled across the run, in scraper order. -/
def pooledEntries (scrapers : List Scraper) : List RaffleData :=
  (scrapers.map (fun sc => (runScraper sc).1)).flatten

/-- The `result` dictionary of `ingest_all` (timestamp elided). -/
structure IngestSummary where
  scrapers : List String
  ingested : Nat
  deleted : Nat
  failed : List String
deriving Repr, DecidableEq

/-- How a call to `ingest_all` ends: a returned summary, a raised
`IngestionError` naming the failed sources, or an uncaught exception. -/
inductive IngestOutcome where
  | summary (s : IngestSummary)
  | ingestionError (failed : List String)
  | uncaught (e : PyErr)
deriving Repr, DecidableEq

/-- Embedding of `ingest_all` (src/app/ingest.py, lines 38-88): run every
scraper under its own `try`, pool normalized entries and failures, serialize
and upsert everything, prune by present keys only when no scraper failed, and
finally raise `IngestionError` when any failed — otherwise return the
summary.  Returns the database content after the call together with its
outcome.  `now` stands for the wall clock. -/
def ingest_all (scrapers : List Scraper) (db : List Row) (now : PyDateTime) :
    List Row × IngestOutcome :=
  let normalized : List RaffleData := pooledEntries scrapers
  let failed : List String := failedSources scrapers
  match (normalized.mapM (fun e => serialize_raffle e now) : Except PyErr (List Row)) with
  | .error e => (db, .uncaught e)
  | .ok serialized_rows =>
    let db1 := upsert_raffles db serialized_rows
    let (db2, deleted) :=
      match failed with
      | [] => prune_missing db1 (normalized.map (fun e : RaffleData => (e.source, e.raffle_id)))
      | _ :: _ => (db1, 0)
    match failed with
    | [] =>
      (db2, .summary ⟨scrapers.map (fun sc : Scraper => sc.source), normalized.length,
        deleted, failed⟩)
    | _ :: _ => (db2, .ingestionError failed)

end App

namespace Playwright

/-- Structure `PlaywrightFetcherConfig` (src/scrapers/playwright_fetcher.py); the cache
directory and wait timeout play no role in the embedded behaviour. -/
structure Config where
  ttl_seconds : ℚ
  max_concurrent : Nat
  min_interval_seconds : ℚ
deriving Repr, DecidableEq

/-- One cache file: a timestamp and the rendered content. -/
structure CacheEntry where
  timestamp : ℚ
  content : String
deriving Repr, DecidableEq

/-- Fetcher state: the cache (keyed by cache path), the `_last_fetch` mark of
the rate limiter, and a count of `_fetch_impl` invocations (the render log).
A single global clock stands for both `time.time()` and `time.monotonic()`. -/
structure FetcherState where
  cache : List (String × CacheEntry)
  last_fetch : ℚ
  renders : Nat
deriving Repr, DecidableEq

/-- Embedding of `_cache_path`: the key material is the url, a bar, and the
selector or the empty string (the SHA-256 digest step is dropped; equal keys
collapse identically). -/
def cache_key (url : String) (wait_for_selector : Option String) : String :=
  url ++ "|" ++ wait_for_selector.getD ""

/-- Embedding of `_read_cache`: a missing entry, or one whose age exceeds the TTL, misses. -/
def read_cache (cache : List (String × CacheEntry)) (key : String) (now ttl : ℚ) :
    Option String :=
  match cache.find? (fun p => p.1 = key) with
  | none => none
  | some (_, e) => if now - e.timestamp > ttl then none else some e.content

/-- Embedding of `_write_cache`: store the timestamp and content under the key. -/
def write_cache (cache : List (String × CacheEntry)) (key : String)
    (now : ℚ) (content : String) : List (String × CacheEntry) :=
  if cache.any (fun p => p.1 = key) then
    cache.map (fun p => if p.1 = key then (key, ⟨now, content⟩) else p)
  else cache ++ [(key, ⟨now, content⟩)]

/-- Embedding of `PlaywrightFetcher.fetch` (src/scrapers/playwright_fetcher.py,
lines 46-78) for one sequential caller at instant `now`: cache read, then
(the per-URL lock and the semaphore admit the sole caller at once, and the
double-checked re-read sees the same state) `_respect_interval` — sleeping
`min_interval - elapsed` when positive and stamping `_last_fetch` with the
post-sleep clock — then the render (`renderResult` stands for the content
`_fetch_impl` produces), then the cache write.  Returns the content and the
successor state. -/
def fetch (cfg : Config) (st : FetcherState) (url : String)
    (wait_for_selector : Option String) (use_cache : Bool) (now : ℚ)
    (renderResult : String) : String × FetcherState :=
  let key := cache_key url wait_for_selector
  match (if use_cache then read_cache st.cache key now cfg.ttl_seconds else none) with
  | some cached => (cached, st)
  | none =>
    let wait := max 0 (cfg.min_interval_seconds - (now - st.last_fetch))
    let start := now + wait
    let html := renderResult
    let st := { st with last_fetch := start, renders := st.renders + 1 }
    if use_cache then (html, { st with cache := write_cache st.cache key start html })
    else (html, st)

end Playwright

namespace Retry

/-- Outcome of one network attempt: a 2xx/3xx body, or a failure (network
error or bad status). -/
inductive FetchOutcome where
  | success (body : String)
  | failure (err : String)
deriving Repr, DecidableEq

/-- What one `fetch` call did: its result, the backoff waits it slept, and
the number of attempts it made. -/
structure RetryResult where
  result : Except String String
  waits : List ℚ
  attemptsMade : Nat
deriving Repr

/-- Modelled from the spec: the retry loop of `RetryingFetcher`
(`BaseScraper.request_with_retry`, called from
`RaffleSiteAScraper.fetch` in src/scraper/sites/raffle_site_a.py but not
itself present under src/).  Per §4.3: up to `maxRetries` attempts; each
failed attempt followed by another waits `backoffFactor ^ attemptNumber`
seconds before the next attempt; the final attempt's error is surfaced.
`responses` gives the outcome of each numbered attempt; `remaining` counts
the attempts still allowed. -/
def retryFrom (responses : Nat → FetchOutcome) (backoff : ℚ) (attempt : Nat) :
    (remaining : Nat) → RetryResult
  | 0 => ⟨.error "no attempts permitted", [], 0⟩
  | remaining + 1 =>
    match responses attempt with
    | .success body => ⟨.ok body, [], 1⟩
    | .failure err =>
      match remaining with
      | 0 => ⟨.error err, [], 1⟩
      | _ + 1 =>
        let r := retryFrom responses backoff (attempt + 1) remaining
        ⟨r.result, backoff ^ attempt :: r.waits, r.attemptsMade + 1⟩

/-- Modelled from the spec: `request_with_retry(url)` with `maxRetries`
attempts and exponential backoff (§4.3). -/
def request_with_retry (maxRetries : Nat) (backoff : ℚ)
    (responses : Nat → FetchOutcome) : RetryResult :=
  retryFrom responses backoff 0 maxRetries

end Retry

/-! Theorems about the embedded pipeline. -/

section MetricsTheorems

open Scraper

/-- Lemma: `soldRatio` never raises: the division is guarded by the truthiness check
on `total`, so `ZeroDivisionError` is unreachable. -/
theorem soldRatio_ok (sold total : Option Int) : ∃ q, soldRatio sold total = .ok q := by
  rcases sold with _ | s <;> rcases total with _ | t
  · exact ⟨_, rfl⟩
  · exact ⟨_, rfl⟩
  · exact ⟨_, rfl⟩
  · simp only [soldRatio, floatDiv]
    split_ifs with h h2
    · exact absurd (Int.cast_eq_zero.mp h2) h
    · exact ⟨_, rfl⟩
    · exact ⟨_, rfl⟩

/-- The count fields of a normalization run are the three inference steps. -/
theorem normalizeRun_fields (t s r : Option Int) :
    (normalizeRun t s r).total = inferTotal t s r ∧
    (normalizeRun t s r).sold = inferSold s (inferTotal t s r) r ∧
    (normalizeRun t s r).remaining =
      inferRemaining r (inferTotal t s r) (inferSold s (inferTotal t s r) r) := by
  obtain ⟨q, hq⟩ := soldRatio_ok (inferSold s (inferTotal t s r) r) (inferTotal t s r)
  simp only [normalizeRun, normalize_ticket_metrics]
  rw [hq]
  exact ⟨rfl, rfl, rfl⟩

/-- Characterization of `sumConsistent` for a record whose three count fields are known. -/
theorem sumConsistent_iff (m : NormalizedTicketMetrics) (t s r : Int)
    (h1 : m.total = some t) (h2 : m.sold = some s) (h3 : m.remaining = some r) :
    sumConsistent m ↔ t = s + r := by
  constructor
  · intro h
    exact h t s r h1 h2 h3
  · intro h t' s' r' h1' h2' h3'
    rw [h1] at h1'
    rw [h2] at h2'
    rw [h3] at h3'
    injection h1' with e1
    injection h2' with e2
    injection h3' with e3
    omega

end MetricsTheorems

/-- C1 counterexample.  The input `(total=5, sold=None, remaining=10)` has at
most one null component, with every present component non-negative; after
`normalize_ticket_metrics` all three result components are non-null, yet
`total = 5 ≠ 0 + 10 = sold + remaining` — the `max(total - remaining, 0)`
clamp breaks the claimed equality. -/
theorem C1_counterexample :
    (Scraper.normalizeRun (some 5) none (some 10)).total = some 5 ∧
    (Scraper.normalizeRun (some 5) none (some 10)).sold = some 0 ∧
    (Scraper.normalizeRun (some 5) none (some 10)).remaining = some 10 ∧
    ¬ (5 : Int) = 0 + 10 := by
  refine ⟨rfl, rfl, rfl, by decide⟩

/-- C1 (amended): after `normalize_ticket_metrics`, with at most one null
input and all three result components non-null, `total = sold + remaining`
holds iff the inputs did not force a clamp or carry an inconsistency:
unconditionally when `total` was the null component; iff `remaining ≤ total`
when `sold` was null; iff `sold ≤ total` when `remaining` was null; and iff
the inputs were already consistent when none was null. -/
theorem C1_amended :
    (∀ s r : Int, Scraper.sumConsistent (Scraper.normalizeRun none (some s) (some r))) ∧
    (∀ t r : Int,
      Scraper.sumConsistent (Scraper.normalizeRun (some t) none (some r)) ↔ r ≤ t) ∧
    (∀ t s : Int,
      Scraper.sumConsistent (Scraper.normalizeRun (some t) (some s) none) ↔ s ≤ t) ∧
    (∀ t s r : Int,
      Scraper.sumConsistent (Scraper.normalizeRun (some t) (some s) (some r)) ↔ t = s + r) := by
  refine ⟨?_, ?_, ?_, ?_⟩
  · intro s r
    obtain ⟨h1, h2, h3⟩ := normalizeRun_fields none (some s) (some r)
    rw [sumConsistent_iff _ (s + r) s r (by rw [h1]; rfl) (by rw [h2]; rfl) (by rw [h3]; rfl)]
  · intro t r
    obtain ⟨h1, h2, h3⟩ := normalizeRun_fields (some t) none (some r)
    rw [sumConsistent_iff _ t (max (t - r) 0) r (by rw [h1]; rfl) (by rw [h2]; rfl)
      (by rw [h3]; rfl)]
    omega
  · intro t s
    obtain ⟨h1, h2, h3⟩ := normalizeRun_fields (some t) (some s) none
    rw [sumConsistent_iff _ t s (max (t - s) 0) (by rw [h1]; rfl) (by rw [h2]; rfl)
      (by rw [h3]; rfl)]
    omega
  · intro t s r
    obtain ⟨h1, h2, h3⟩ := normalizeRun_fields (some t) (some s) (some r)
    rw [sumConsistent_iff _ t s r (by rw [h1]; rfl) (by rw [h2]; rfl) (by rw [h3]; rfl)]

/-- C1 witness: the spec's own example `(500, None, 150)` normalizes to a
consistent triple. -/
theorem C1_witness :
    Scraper.sumConsistent (Scraper.normalizeRun (some 500) none (some 150)) :=
  (C1_amended.2.1 500 150).mpr (by decide)

/-- C10: `normalize_ticket_metrics` never alters a non-null input field —
inference only fills null fields, so a fully-specified triple passes through
unchanged. -/
theorem C10_frame (t s r : Option Int) :
    (∀ x : Int, t = some x → (Scraper.normalizeRun t s r).total = some x) ∧
    (∀ x : Int, s = some x → (Scraper.normalizeRun t s r).sold = some x) ∧
    (∀ x : Int, r = some x → (Scraper.normalizeRun t s r).remaining = some x) := by
  obtain ⟨h1, h2, h3⟩ := normalizeRun_fields t s r
  refine ⟨fun x hx => ?_, fun x hx => ?_, fun x hx => ?_⟩
  · subst hx
    rw [h1]
    rcases s with _ | sv <;> rcases r with _ | rv <;> rfl
  · subst hx
    rw [h2]
    rcases t with _ | tv <;> rcases r with _ | rv <;> rfl
  · subst hx
    rw [h3]
    rcases t with _ | tv <;> rcases s with _ | sv <;> rfl

/-- C10 witness: the mutually inconsistent fully-specified triple
`(total=1, sold=2, remaining=3)` passes through unreconciled. -/
theorem C10_witness :
    (Scraper.normalizeRun (some 1) (some 2) (some 3)).total = some 1 ∧
    (Scraper.normalizeRun (some 1) (some 2) (some 3)).sold = some 2 ∧
    (Scraper.normalizeRun (some 1) (some 2) (some 3)).remaining = some 3 :=
  ⟨(C10_frame (some 1) (some 2) (some 3)).1 1 rfl,
   (C10_frame (some 1) (some 2) (some 3)).2.1 2 rfl,
   (C10_frame (some 1) (some 2) (some 3)).2.2 3 rfl⟩

/-- C4: `_compute_odds` agrees with the claimed odds contract pointwise:
null outputs iff `total` is null or `≤ 0`; otherwise the win probability is
`1/total`; `minTicketsForHalfChance` is `1` at `total = 1` (the code's
`1 - p ≤ 0` branch) and `ceil (ln 0.5 / ln (1 - 1/total))` clamped to a
minimum of `1` at `total > 1`. -/
theorem C4_odds (total : Option Int) :
    UpdateRaffles.compute_odds total = UpdateRaffles.odds_spec total := by
  rcases total with _ | t
  · rfl
  · simp only [UpdateRaffles.compute_odds, UpdateRaffles.odds_spec]
    by_cases h : t ≤ 0
    · simp [h]
    · push_neg at h
      have h' : ¬ t ≤ 0 := by omega
      by_cases h1 : t = 1
      · subst h1
        norm_num
      · have ht2 : (2 : Int) ≤ t := by omega
        have ht2R : (2 : ℝ) ≤ (t : ℝ) := by exact_mod_cast ht2
        have hq : ¬ ((1 : ℝ) - 1 / (t : ℝ) ≤ 0) := by
          have htpos : (0 : ℝ) < (t : ℝ) := by linarith
          have : 1 / (t : ℝ) < 1 := by
            rw [div_lt_one htpos]
            linarith
          linarith
        simp only [if_neg h', if_neg h1, if_neg hq]

/-- The only error `Py.mkTimedelta` raises is `OverflowError`. -/
theorem mkTimedelta_only_overflow (d h m s : Int) (e : PyErr)
    (he : Py.mkTimedelta d h m s = .error e) : e = .overflowError := by
  simp only [Py.mkTimedelta] at he
  split at he
  · injection he with h'
    exact h'.symm
  · exact absurd he (by simp)

/-- The only error `Py.PyDateTime.addTimedelta` raises is `OverflowError`. -/
theorem addTimedelta_only_overflow (dt : Py.PyDateTime) (secs : Int) (e : PyErr)
    (he : dt.addTimedelta secs = .error e) : e = .overflowError := by
  simp only [Py.PyDateTime.addTimedelta] at he
  split at he
  · injection he with h'
    exact h'.symm
  · exact absurd he (by simp)

/-- The only error `CountdownGroups.timedeltaChecked` raises is
`OverflowError`. -/
theorem timedeltaChecked_only_overflow (g : Scraper.CountdownGroups) (e : PyErr)
    (he : g.timedeltaChecked = .error e) : e = .overflowError :=
  mkTimedelta_only_overflow _ _ _ _ e he

/-- With a non-zero divisor, the only error `trueDiv` raises is
`OverflowError`. -/
theorem trueDiv_only_overflow (a b : Int) (hb : b ≠ 0) (e : PyErr)
    (he : Scraper.trueDiv a b = .error e) : e = .overflowError := by
  unfold Scraper.trueDiv at he
  rw [if_neg hb] at he
  split at he
  · injection he with h'
    exact h'.symm
  · exact absurd he (by simp)

/-- The checked ratio either succeeds or overflows; the division-by-zero
branch stays unreachable behind the truthiness guard. -/
theorem soldRatioChecked_cases (sold total : Option Int) :
    (∃ q, Scraper.soldRatioChecked sold total = .ok q) ∨
      Scraper.soldRatioChecked sold total = .error .overflowError := by
  rcases sold with _ | s <;> rcases total with _ | t
  · exact Or.inl ⟨_, rfl⟩
  · exact Or.inl ⟨_, rfl⟩
  · exact Or.inl ⟨_, rfl⟩
  · simp only [Scraper.soldRatioChecked]
    by_cases ht : t ≠ 0
    · rw [if_pos ht]
      rcases hd : Scraper.trueDiv s t with e | q
      · have he : e = .overflowError := trueDiv_only_overflow s t ht e hd
        right
        rw [he]
        rfl
      · exact Or.inl ⟨_, rfl⟩
    · rw [if_neg ht]
      exact Or.inl ⟨_, rfl⟩

set_option maxHeartbeats 4000000 in
set_option maxRecDepth 8000 in
/-- C6 counterexample.  The claim says the two functions never raise, but the
countdown arithmetic and the ratio division sit outside any `try` in the
source: `parse_countdown_text("3000000 days")` reaches `now + delta`
(src/scraper/utils.py, line 77) with a year-10238 result and raises
`OverflowError`, and `normalize_ticket_metrics(total=1, sold=10^400,
remaining=3)` raises `OverflowError` in the `sold / total` float division,
which the truthiness guard does not prevent. -/
theorem C6_counterexample :
    Scraper.parse_countdown_text_checked (some "3000000 days")
        (some (Py.mkDateTime 2024 5 1 0 0 0 (some 0)))
        (Py.mkDateTime 2024 5 1 0 0 0 (some 0)) =
      .error .overflowError ∧
    Scraper.normalize_ticket_metrics_checked (some 1) (some (10 ^ 400)) (some 3) =
      .error .overflowError := by
  constructor
  · rfl
  · rfl

/-- C6 (amended): the only exception that escapes `parse_countdown_text` or
`normalize_ticket_metrics` is the numeric-bound `OverflowError`: the
countdown branch propagates it when the summed duration overflows
`timedelta` or the shifted datetime leaves years 1–9999 — and only when a
countdown group actually matched — and the ratio division propagates it when
`sold / total` exceeds the float range.  Every date-parse error is caught,
and every other input degrades to `ok` with null fields, never another
exception. -/
theorem C6_amended :
    (∀ (value : Option String) (now : Option Py.PyDateTime) (wallNow : Py.PyDateTime),
      (∃ r, Scraper.parse_countdown_text_checked value now wallNow = .ok r) ∨
      (Scraper.parse_countdown_text_checked value now wallNow = .error .overflowError ∧
        ∃ v g, value = some v ∧
          Scraper.findCountdown (PyStr.lower (PyStr.strip v)).toList = some g)) ∧
    (∀ total sold remaining : Option Int,
      (∃ m, Scraper.normalize_ticket_metrics_checked total sold remaining = .ok m) ∨
      Scraper.normalize_ticket_metrics_checked total sold remaining
        = .error .overflowError) := by
  constructor
  · intro value now wallNow
    rcases value with _ | v
    · exact Or.inl ⟨_, rfl⟩
    · simp only [Scraper.parse_countdown_text_checked]
      by_cases hv : PyStr.strip v = ""
      · rw [if_pos hv]
        exact Or.inl ⟨_, rfl⟩
      · rw [if_neg hv]
        rcases hab : Scraper.resolveAbsolute (PyStr.strip v) with e | parsed
        · dsimp only
          rcases hf : Scraper.findCountdown (PyStr.lower (PyStr.strip v)).toList with _ | g
          · exact Or.inl ⟨_, rfl⟩
          · dsimp only
            rcases htd : g.timedeltaChecked with e2 | secs
            · dsimp only
              rw [timedeltaChecked_only_overflow g e2 htd]
              exact Or.inr ⟨rfl, v, g, rfl, hf⟩
            · dsimp only
              rcases hat : (now.getD wallNow).addTimedelta secs with e3 | dt
              · dsimp only
                rw [addTimedelta_only_overflow _ _ e3 hat]
                exact Or.inr ⟨rfl, v, g, rfl, hf⟩
              · exact Or.inl ⟨some dt.isoformat, rfl⟩
        · exact Or.inl ⟨some parsed.isoformat, rfl⟩
  · intro t s r
    rcases soldRatioChecked_cases (Scraper.inferSold s (Scraper.inferTotal t s r) r)
        (Scraper.inferTotal t s r) with ⟨q, hq⟩ | hq
    · exact Or.inl ⟨_, by simp only [Scraper.normalize_ticket_metrics_checked]; rw [hq]; rfl⟩
    · right
      simp only [Scraper.normalize_ticket_metrics_checked]
      rw [hq]
      rfl

/-- C6 witness: the amended theorem applied to the unresolvable text `"soon"`
and to the all-null triple, both of which stay on the `ok` side. -/
theorem C6_witness :
    ((∃ r, Scraper.parse_countdown_text_checked (some "soon") none
        (Py.mkDateTime 2024 5 1 0 0 0 (some 0)) = .ok r) ∨
      (Scraper.parse_countdown_text_checked (some "soon") none
          (Py.mkDateTime 2024 5 1 0 0 0 (some 0)) = .error .overflowError ∧
        ∃ v g, (some "soon" : Option String) = some v ∧
          Scraper.findCountdown (PyStr.lower (PyStr.strip v)).toList = some g)) ∧
    ((∃ m, Scraper.normalize_ticket_metrics_checked none none none = .ok m) ∨
      Scraper.normalize_ticket_metrics_checked none none none = .error .overflowError) :=
  ⟨C6_amended.1 (some "soon") none (Py.mkDateTime 2024 5 1 0 0 0 (some 0)),
   C6_amended.2 none none none⟩

set_option maxHeartbeats 4000000 in
/-- C5: when the absolute (and fuzzy-absolute) parse fails,
`parse_countdown_text` returns `referenceNow` plus the summed
days/hours/minutes/seconds components of the first countdown match, `none`
when no component occurs anywhere; a match with all four components absent is
skipped, never treated as a zero-duration result.  Concretely,
`"Ends in 2 days 3 hours"` from `2024-05-01T00:00:00Z` resolves to
`2024-05-03T03:00:00+00:00` (the `isoformat` spelling of
`2024-05-03T03:00:00Z`). -/
theorem C5_relative_countdown :
    (Scraper.parse_countdown_text (some "Ends in 2 days 3 hours")
        (some (Py.mkDateTime 2024 5 1 0 0 0 (some 0))) (Py.mkDateTime 2024 5 1 0 0 0 (some 0)) =
        .ok (some "2024-05-03T03:00:00+00:00")) ∧
    (∀ (v : String) (now wallNow : Py.PyDateTime) (e : PyErr),
      Scraper.resolveAbsolute (PyStr.strip v) = .error e → ¬ PyStr.strip v = "" →
      Scraper.parse_countdown_text (some v) (some now) wallNow =
        .ok ((Scraper.findCountdown (PyStr.lower (PyStr.strip v)).toList).map
          (fun g => (now.addSeconds g.durationSeconds).isoformat))) ∧
    (∀ (cs : List Char) (g : Scraper.CountdownGroups),
      Scraper.findCountdown cs = some g → g.allAbsent = false) := by
  refine ⟨rfl, ?_, ?_⟩
  · intro v now wallNow e h hne
    simp only [Scraper.parse_countdown_text, if_neg hne]
    rw [h]
    simp only [Option.getD]
    cases hf : Scraper.findCountdown (PyStr.lower (PyStr.strip v)).toList <;> simp [hf]
  · intro cs g h
    induction cs with
    | nil =>
      rw [Scraper.findCountdown] at h
      by_cases hc : (Scraper.countdownGroupsAt []).allAbsent
      · rw [if_pos hc] at h
        exact absurd h (by simp)
      · rw [if_neg hc] at h
        injection h with h'
        subst h'
        simpa using hc
    | cons c tl ih =>
      rw [Scraper.findCountdown] at h
      by_cases hc : (Scraper.countdownGroupsAt (c :: tl)).allAbsent
      · rw [if_pos hc] at h
        exact ih h
      · rw [if_neg hc] at h
        injection h with h'
        subst h'
        simpa using hc

/-- C5 witness: applying the conditional branch of the theorem to the text
`"in 5 minutes"`, whose absolute parse fails, yields the mapped countdown
result. -/
theorem C5_witness :
    Scraper.parse_countdown_text (some "in 5 minutes")
        (some (Py.mkDateTime 2024 5 1 0 0 0 (some 0))) (Py.mkDateTime 2024 5 1 0 0 0 (some 0)) =
      .ok ((Scraper.findCountdown (PyStr.lower (PyStr.strip "in 5 minutes")).toList).map
        (fun g => ((Py.mkDateTime 2024 5 1 0 0 0 (some 0)).addSeconds
          g.durationSeconds).isoformat)) :=
  C5_relative_countdown.2.1 "in 5 minutes" (Py.mkDateTime 2024 5 1 0 0 0 (some 0))
    (Py.mkDateTime 2024 5 1 0 0 0 (some 0)) (.valueError "Could not parse date string")
    rfl (by decide)

/-- C7: deadlines are forced to UTC before storage — a parsed value with no
offset is tagged UTC with its wall clock unchanged (never treated as local),
`resolveAbsolute` never yields a naive value, UTC conversion of an aware
value keeps the instant, and whenever `_ensure_deadline` writes deadline
fields they come from a UTC (`tz = some 0`) datetime. -/
theorem C7_utc_deadline :
    (∀ (v : String) (p : Py.PyDateTime), Dateutil.parse v true = .ok p → p.tz = none →
      Scraper.resolveAbsolute v = .ok ⟨p.wall, some 0⟩) ∧
    (∀ (v : String) (dt : Py.PyDateTime), Scraper.resolveAbsolute v = .ok dt → dt.tz ≠ none) ∧
    (∀ dt : Py.PyDateTime, dt.tz ≠ none →
      dt.astimezoneUTC.tz = some 0 ∧ dt.astimezoneUTC.timestamp = dt.timestamp) ∧
    (∀ rec : UpdateRaffles.RaffleRecord,
      UpdateRaffles.ensure_deadline rec = rec ∨
      ∃ dt : Py.PyDateTime, dt.tz = some 0 ∧
        (UpdateRaffles.ensure_deadline rec).deadline_iso = some dt.isoformat ∧
        (UpdateRaffles.ensure_deadline rec).deadline_ts = some dt.timestamp) := by
  refine ⟨?_, ?_, ?_, ?_⟩
  · intro v p hp hnaive
    simp only [Scraper.resolveAbsolute, hp, Except.map, hnaive, if_pos]
    rfl
  · intro v dt h
    simp only [Scraper.resolveAbsolute] at h
    cases hp : Dateutil.parse v true with
    | error e => rw [hp] at h; exact absurd h (by simp [Except.map])
    | ok p =>
      rw [hp] at h
      simp only [Except.map] at h
      injection h with h'
      subst h'
      by_cases hz : p.tz = none
      · simp [hz, Py.PyDateTime.replaceTz]
      · simp [hz]
  · intro dt h
    rcases hz : dt.tz with _ | o
    · exact absurd hz h
    · constructor
      · simp [Py.PyDateTime.astimezoneUTC, hz]
      · simp [Py.PyDateTime.astimezoneUTC, Py.PyDateTime.timestamp, hz]
  · intro rec
    simp only [UpdateRaffles.ensure_deadline]
    split
    · exact Or.inl rfl
    · split
      · exact Or.inl rfl
      · rename_i dv hdv dt0 hdt0
        refine Or.inr ⟨_, ?_, rfl, rfl⟩
        by_cases hz : dt0.tz = none
        · simp [hz, Py.PyDateTime.replaceTz]
        · rcases ho : dt0.tz with _ | o
          · exact absurd ho hz
          · simp [hz, Py.PyDateTime.astimezoneUTC, ho]

/-- C7 witness: `"2024-05-12 20:00"` parses to a naive value which
`resolveAbsolute` tags as UTC with the wall clock untouched. -/
theorem C7_witness :
    Scraper.resolveAbsolute "2024-05-12 20:00" =
      .ok ⟨(Py.mkDateTime 2024 5 12 20 0 0 none).wall, some 0⟩ :=
  C7_utc_deadline.1 "2024-05-12 20:00" (Py.mkDateTime 2024 5 12 20 0 0 none) rfl rfl

section IngestTheorems

open App

/-- Presence of a key under `find?` is existence of a matching row. -/
theorem findRow_isSome_iff (rows : List Row) (k : String × String) :
    (findRow rows k).isSome = true ↔ ∃ r ∈ rows, rowKeyIs r k = true := by
  induction rows with
  | nil => simp [findRow, List.find?]
  | cons a tl ih =>
    by_cases ha : rowKeyIs a k = true
    · simp [findRow, List.find?, ha]
    · simp only [findRow, List.find?] at ih ⊢
      rw [Bool.eq_false_iff.mpr ha]
      simp only [ih]
      constructor
      · intro ⟨r, hr, hk⟩
        exact ⟨r, List.mem_cons_of_mem a hr, hk⟩
      · intro ⟨r, hr, hk⟩
        rcases List.mem_cons.mp hr with h | h
        · subst h; exact absurd hk ha
        · exact ⟨r, h, hk⟩

/-- Two rows matching the same key share key fields. -/
theorem rowKeyIs_trans (r row : Row) (k : String × String)
    (h1 : rowKeyIs r (row.source, row.raffle_id) = true) (h2 : rowKeyIs r k = true) :
    rowKeyIs row k = true := by
  simp only [rowKeyIs, Bool.and_eq_true, decide_eq_true_eq] at h1 h2 ⊢
  exact ⟨h1.1 ▸ h2.1, h1.2 ▸ h2.2⟩

/-- Lemma: `upsertRow` preserves presence of any key. -/
theorem upsertRow_preserves (rows : List Row) (row : Row) (k : String × String)
    (h : (findRow rows k).isSome = true) :
    (findRow (upsertRow rows row) k).isSome = true := by
  obtain ⟨r, hr, hk⟩ := (findRow_isSome_iff rows k).mp h
  rw [findRow_isSome_iff]
  unfold upsertRow
  split
  · refine ⟨if rowKeyIs r (row.source, row.raffle_id) then row else r, List.mem_map_of_mem _ hr, ?_⟩
    by_cases hc : rowKeyIs r (row.source, row.raffle_id) = true
    · simp only [hc, if_true]
      exact rowKeyIs_trans r row k hc hk
    · rw [if_neg hc]
      exact hk
  · exact ⟨r, List.mem_append_left _ hr, hk⟩

/-- After `upsertRow rows row`, the key of `row` is present. -/
theorem upsertRow_inserts (rows : List Row) (row : Row) :
    (findRow (upsertRow rows row) (row.source, row.raffle_id)).isSome = true := by
  rw [findRow_isSome_iff]
  unfold upsertRow
  split
  · rename_i hany
    obtain ⟨r, hr, hk⟩ := List.any_eq_true.mp hany
    refine ⟨if rowKeyIs r (row.source, row.raffle_id) then row else r,
      List.mem_map_of_mem _ hr, ?_⟩
    rw [if_pos hk]
    simp [rowKeyIs]
  · exact ⟨row, List.mem_append_right _ (List.mem_singleton.mpr rfl), by simp [rowKeyIs]⟩

/-- Lemma: `upsert_raffles` preserves presence of any key. -/
theorem upsert_raffles_preserves (db : List Row) (rows : List Row) (k : String × String)
    (h : (findRow db k).isSome = true) :
    (findRow (upsert_raffles db rows) k).isSome = true := by
  induction rows generalizing db with
  | nil => exact h
  | cons a tl ih => exact ih (upsertRow db a) (upsertRow_preserves db a k h)

/-- Any key carried by an upserted row is present afterwards. -/
theorem upsert_raffles_inserts (db : List Row) (rows : List Row) (k : String × String)
    (h : ∃ row ∈ rows, rowKeyIs row k = true) :
    (findRow (upsert_raffles db rows) k).isSome = true := by
  induction rows generalizing db with
  | nil => simp at h
  | cons a tl ih =>
    obtain ⟨row, hrow, hk⟩ := h
    rcases List.mem_cons.mp hrow with heq | hmem
    · subst heq
      have hk2 : k = (row.source, row.raffle_id) := by
        simp only [rowKeyIs, Bool.and_eq_true, decide_eq_true_eq] at hk
        cases k
        simp_all
      rw [hk2]
      exact upsert_raffles_preserves (upsertRow db row) tl _ (upsertRow_inserts db row)
    · exact ih (upsertRow db a) ⟨row, hmem, hk⟩

/-- Lemma: `prune_missing` keeps every row whose key is among the present keys. -/
theorem prune_missing_keeps (rows : List Row) (keys : List (String × String))
    (k : String × String) (hmem : k ∈ keys) (h : (findRow rows k).isSome = true) :
    (findRow (prune_missing rows keys).1 k).isSome = true := by
  obtain ⟨r, hr, hk⟩ := (findRow_isSome_iff rows k).mp h
  rcases keys with _ | ⟨k0, ktl⟩
  · simp at hmem
  · rw [findRow_isSome_iff]
    refine ⟨r, ?_, hk⟩
    show r ∈ rows.filter fun rr => (k0 :: ktl).any (fun kk => rowKeyIs rr kk)
    exact List.mem_filter.mpr ⟨hr, List.any_eq_true.mpr ⟨k, hmem, hk⟩⟩

/-- Every entry surviving `collectNormalized` carries a UTC deadline. -/
theorem collectNormalized_utc (l : List RaffleData) (e : RaffleData)
    (h : e ∈ (collectNormalized l).1) : e.deadline.tz = some 0 := by
  induction l with
  | nil => simp [collectNormalized] at h
  | cons a tl ih =>
    simp only [collectNormalized] at h
    rcases ha : normalize_raffle a with err | na
    · rw [ha] at h
      simp at h
    · rw [ha] at h
      simp only [List.mem_cons] at h
      rcases h with h | h
      · subst h
        unfold normalize_raffle at ha
        split at ha
        · exact absurd ha (by simp)
        · rename_i hz
          injection ha with ha'
          subst ha'
          simp only [Py.PyDateTime.astimezoneUTC]
          rcases hdz : a.deadline.tz with _ | o
          · exact absurd hdz hz
          · simp
      · exact ih h

/-- Lemma: `runScraper` collects exactly the normalized entries. -/
theorem runScraper_fst (sc : Scraper) :
    (runScraper sc).1 = (collectNormalized sc.entries).1 := by
  unfold runScraper
  rcases h : (collectNormalized sc.entries) with ⟨entries, _ | f⟩ <;> simp

/-- Every pooled entry carries a UTC deadline. -/
theorem pooledEntries_utc (scrapers : List Scraper) (e : RaffleData)
    (h : e ∈ pooledEntries scrapers) : e.deadline.tz = some 0 := by
  unfold pooledEntries at h
  obtain ⟨l, hl, he⟩ := List.mem_flatten.mp h
  obtain ⟨sc, _, hsc⟩ := List.mem_map.mp hl
  subst hsc
  rw [runScraper_fst sc] at he
  exact collectNormalized_utc sc.entries e he

/-- Serialization of a list of UTC-deadline entries succeeds, and the
produced rows carry the entries' keys. -/
theorem mapM_serialize_ok (l : List RaffleData) (now : Py.PyDateTime)
    (h : ∀ e ∈ l, e.deadline.tz = some 0) :
    ∃ rows, (l.mapM (fun e => serialize_raffle e now) : Except PyErr (List Row)) = .ok rows ∧
      ∀ e ∈ l, ∃ r ∈ rows, rowKeyIs r (e.source, e.raffle_id) = true := by
  induction l with
  | nil => exact ⟨[], rfl, by simp⟩
  | cons a tl ih =>
    obtain ⟨rows, hrows, hkeys⟩ := ih (fun e he => h e (List.mem_cons_of_mem a he))
    have ha : a.deadline.tz = some 0 := h a (List.mem_cons_self a tl)
    have hser : serialize_raffle a now =
        .ok ⟨a.source, a.raffle_id, a.title, a.price, a.total_tickets, a.tickets_remaining,
          zSuffix a.deadline.astimezoneUTC.isoformat, zSuffix now.isoformat⟩ := by
      unfold serialize_raffle
      rw [if_neg (by rw [ha]; simp)]
    refine ⟨⟨a.source, a.raffle_id, a.title, a.price, a.total_tickets, a.tickets_remaining,
        zSuffix a.deadline.astimezoneUTC.isoformat, zSuffix now.isoformat⟩ :: rows, ?_, ?_⟩
    · rw [List.mapM_cons, hser, hrows]
      rfl
    · intro e he
      rcases List.mem_cons.mp he with heq | hmem
      · subst heq
        exact ⟨_, List.mem_cons_self _ _, by simp [rowKeyIs]⟩
      · obtain ⟨r, hr, hk⟩ := hkeys e hmem
        exact ⟨r, List.mem_cons_of_mem _ hr, hk⟩

end IngestTheorems

section IngestClaims

open App

/-- With serialization succeeding, `ingest_all` reduces to its two final
branches on the failure list. -/
theorem ingest_all_cases (scrapers : List Scraper) (db : List Row) (now : Py.PyDateTime)
    (rows : List Row)
    (hrows : ((pooledEntries scrapers).mapM (fun e => serialize_raffle e now)
      : Except PyErr (List Row)) = .ok rows) :
    (failedSources scrapers ≠ [] ∧
      ingest_all scrapers db now =
        (upsert_raffles db rows, .ingestionError (failedSources scrapers))) ∨
    (failedSources scrapers = [] ∧
      ingest_all scrapers db now =
        ((prune_missing (upsert_raffles db rows)
            ((pooledEntries scrapers).map (fun e => (e.source, e.raffle_id)))).1,
         .summary ⟨scrapers.map (fun sc => sc.source), (pooledEntries scrapers).length,
           (prune_missing (upsert_raffles db rows)
             ((pooledEntries scrapers).map (fun e => (e.source, e.raffle_id)))).2, []⟩)) := by
  rcases hf : failedSources scrapers with _ | ⟨f, ftl⟩
  · refine Or.inr ⟨rfl, ?_⟩
    simp only [ingest_all, hrows, hf]
  · refine Or.inl ⟨by simp, ?_⟩
    simp only [ingest_all, hrows, hf]

/-- C2 (amended): `ingest_all` catches each failing scraper's exception,
executes every scraper, upserts every successfully produced (normalized)
entry, and records the failing sources; but when any scraper failed it
**raises** `IngestionError` naming those sources after upserting, instead of
returning the summary.  (Serialization never raises: every pooled entry is
timezone-aware by construction.) -/
theorem C2_amended (scrapers : List Scraper) (db : List Row) (now : Py.PyDateTime) :
    (∀ e : PyErr, (ingest_all scrapers db now).2 ≠ .uncaught e) ∧
    (∀ sc ∈ scrapers, ∀ entry ∈ (runScraper sc).1,
      (findRow (ingest_all scrapers db now).1 (entry.source, entry.raffle_id)).isSome
        = true) ∧
    (failedSources scrapers ≠ [] →
      (ingest_all scrapers db now).2 = .ingestionError (failedSources scrapers)) ∧
    (failedSources scrapers = [] →
      ∃ s, (ingest_all scrapers db now).2 = .summary s ∧ s.failed = []) := by
  obtain ⟨rows, hrows, hkeys⟩ :=
    mapM_serialize_ok (pooledEntries scrapers) now (pooledEntries_utc scrapers)
  rcases ingest_all_cases scrapers db now rows hrows with ⟨hne, heq⟩ | ⟨hnil, heq⟩
  · refine ⟨?_, ?_, ?_, ?_⟩
    · intro e
      rw [heq]
      simp
    · intro sc hsc entry hentry
      rw [heq]
      have hpool : entry ∈ pooledEntries scrapers := by
        unfold pooledEntries
        exact List.mem_flatten.mpr ⟨(runScraper sc).1,
          List.mem_map.mpr ⟨sc, hsc, rfl⟩, hentry⟩
      exact upsert_raffles_inserts db rows _ (hkeys entry hpool)
    · intro _
      rw [heq]
    · intro hfail
      exact absurd hfail hne
  · refine ⟨?_, ?_, ?_, ?_⟩
    · intro e
      rw [heq]
      simp
    · intro sc hsc entry hentry
      rw [heq]
      have hpool : entry ∈ pooledEntries scrapers := by
        unfold pooledEntries
        exact List.mem_flatten.mpr ⟨(runScraper sc).1,
          List.mem_map.mpr ⟨sc, hsc, rfl⟩, hentry⟩
      refine prune_missing_keeps _ _ _ ?_ ?_
      · exact List.mem_map.mpr ⟨entry, hpool, rfl⟩
      · exact upsert_raffles_inserts db rows _ (hkeys entry hpool)
    · intro hfail
      exact absurd hnil hfail
    · intro _
      rw [heq]
      exact ⟨_, rfl, rfl⟩

/-- C2 counterexample: with a failing scraper `"a"` and a succeeding scraper
`"b"`, the run upserts `"b"`'s entry and records `"a"`, but ends by raising
`IngestionError` — it does not return its summary. -/
theorem C2_counterexample :
    (App.ingest_all
        [⟨"a", [], some (.valueError "boom")⟩,
         ⟨"b", [⟨"b", "1", "Raffle One", 5, 100, 40, Py.mkDateTime 2024 6 5 0 0 0 (some 0)⟩],
          none⟩]
        [] (Py.mkDateTime 2024 6 1 12 0 0 (some 0))).2 =
      .ingestionError ["a"] ∧
    (App.findRow
        (App.ingest_all
          [⟨"a", [], some (.valueError "boom")⟩,
           ⟨"b", [⟨"b", "1", "Raffle One", 5, 100, 40, Py.mkDateTime 2024 6 5 0 0 0 (some 0)⟩],
            none⟩]
          [] (Py.mkDateTime 2024 6 1 12 0 0 (some 0))).1 ("b", "1")).isSome = true := by
  constructor
  · rfl
  · rfl

/-- C2 witness: applied to that same failing-plus-succeeding scraper set, the
amended theorem's abort branch fires. -/
theorem C2_witness :
    (App.ingest_all
        [⟨"a", [], some (.valueError "boom")⟩,
         ⟨"b", [⟨"b", "1", "Raffle One", 5, 100, 40, Py.mkDateTime 2024 6 5 0 0 0 (some 0)⟩],
          none⟩]
        [] (Py.mkDateTime 2024 6 1 12 0 0 (some 0))).2 =
      .ingestionError (App.failedSources
        [⟨"a", [], some (.valueError "boom")⟩,
         ⟨"b", [⟨"b", "1", "Raffle One", 5, 100, 40, Py.mkDateTime 2024 6 5 0 0 0 (some 0)⟩],
          none⟩]) :=
  (C2_amended _ _ _).2.2.1 (by decide)

/-- C3 (amended): deletion by staleness holds of the scripts pipeline —
`prune_stale` removes exactly the rows with `last_seen` before the cutoff —
while the app pipeline's `ingest_all` instead prunes by diffing against the
run's key set, and skips pruning entirely (no key ever disappears) when any
scraper failed. -/
theorem C3_amended :
    (∀ (rows : List Raffles.DbRow) (cutoff : Int) (r : Raffles.DbRow),
      r ∈ (Raffles.prune_stale rows cutoff).1 ↔ r ∈ rows ∧ ¬ r.last_seen < cutoff) ∧
    (∀ (scrapers : List Scraper) (db : List Row) (now : Py.PyDateTime),
      failedSources scrapers ≠ [] →
      ∀ r ∈ db, (findRow (ingest_all scrapers db now).1 (r.source, r.raffle_id)).isSome
        = true) := by
  constructor
  · intro rows cutoff r
    unfold Raffles.prune_stale
    simp [List.mem_filter]
  · intro scrapers db now hfail r hr
    obtain ⟨rows, hrows, _⟩ :=
      mapM_serialize_ok (pooledEntries scrapers) now (pooledEntries_utc scrapers)
    rcases ingest_all_cases scrapers db now rows hrows with ⟨_, heq⟩ | ⟨hnil, _⟩
    · rw [heq]
      refine upsert_raffles_preserves db rows _ ?_
      exact (findRow_isSome_iff db _).mpr ⟨r, hr, by simp [rowKeyIs]⟩
    · exact absurd hnil hfail

/-- C3 counterexample: a run in which every scraper succeeds deletes the
stored record `("x", "2")` even though its `last_seen` (`last_updated_utc`)
equals the very instant of the run — it is removed purely because its key is
absent from the run's result set, not because it is stale. -/
theorem C3_counterexample :
    (App.findRow
      (App.ingest_all
        [⟨"b", [⟨"b", "1", "Raffle One", 5, 100, 40, Py.mkDateTime 2024 6 5 0 0 0 (some 0)⟩],
          none⟩]
        [⟨"x", "2", "Still fresh", 1, 10, 5, "2024-06-30T00:00:00Z",
          App.zSuffix (Py.mkDateTime 2024 6 1 12 0 0 (some 0)).isoformat⟩]
        (Py.mkDateTime 2024 6 1 12 0 0 (some 0))).1 ("x", "2")) = none := by
  rfl

/-- C3 witness: the staleness characterization applied to a concrete fresh
row and cutoff. -/
theorem C3_witness :
    ⟨"a", "1", 100⟩ ∈ (Raffles.prune_stale [⟨"a", "1", 100⟩, ⟨"a", "2", 50⟩] 60).1 :=
  (C3_amended.1 [⟨"a", "1", 100⟩, ⟨"a", "2", 50⟩] 60 ⟨"a", "1", 100⟩).mpr
    ⟨by decide, by decide⟩

end IngestClaims

section CacheTheorems

open Playwright

/-- Value of `find?` after the in-place replacement branch of `write_cache`. -/
theorem find_map_replace (cache : List (String × CacheEntry)) (key : String)
    (e : CacheEntry) :
    ((cache.map (fun p => if p.1 = key then (key, e) else p)).find?
        (fun p => p.1 = key)) =
      if cache.any (fun p => p.1 = key) then some (key, e) else none := by
  induction cache with
  | nil => rfl
  | cons a tl ih =>
    by_cases ha : a.1 = key
    · simp [List.find?, ha]
    · have hd : decide (a.1 = key) = false := by simp [ha]
      simp only [List.map, List.any_cons, List.find?, if_neg ha, hd, Bool.false_or]
      exact ih

/-- Value of `find?` after the append branch of `write_cache`. -/
theorem find_append_new (cache : List (String × CacheEntry)) (key : String)
    (e : CacheEntry) (h : cache.any (fun p => p.1 = key) = false) :
    ((cache ++ [(key, e)]).find? (fun p => p.1 = key)) = some (key, e) := by
  induction cache with
  | nil => simp [List.find?]
  | cons a tl ih =>
    simp only [List.any_cons, Bool.or_eq_false_iff] at h
    simp only [List.cons_append, List.find?]
    rw [h.1]
    exact ih h.2

/-- Reading a key straight after writing it yields the written content unless
the entry has already expired. -/
theorem read_after_write (cache : List (String × CacheEntry)) (key : String)
    (ts : ℚ) (content : String) (now ttl : ℚ) :
    read_cache (write_cache cache key ts content) key now ttl =
      if now - ts > ttl then none else some content := by
  by_cases hany : (cache.any fun p => decide (p.1 = key)) = true
  · unfold read_cache write_cache
    rw [if_pos hany, find_map_replace, if_pos hany]
  · unfold read_cache write_cache
    rw [if_neg hany, find_append_new cache key ⟨ts, content⟩ (Bool.eq_false_iff.mpr hany)]

/-- C8: starting from a state with no live cache entry for the key, a first
`fetch(useCache=true)` invokes the underlying render exactly once (render
count `+1`) and caches its content at the rate-limited start time; a second
`fetch` for the same `(url, waitSelector)` key within the TTL of that render
returns the first call's content — not a new render's — and leaves the state
untouched. -/
theorem C8_render_cache (cfg : Config) (st0 : FetcherState) (url : String)
    (sel : Option String) (t1 t2 : ℚ) (body1 body2 : String)
    (hmiss : read_cache st0.cache (cache_key url sel) t1 cfg.ttl_seconds = none)
    (hlive : ¬ t2 - (t1 + max 0 (cfg.min_interval_seconds - (t1 - st0.last_fetch)))
      > cfg.ttl_seconds) :
    Playwright.fetch cfg st0 url sel true t1 body1 =
      (body1,
       ⟨write_cache st0.cache (cache_key url sel)
          (t1 + max 0 (cfg.min_interval_seconds - (t1 - st0.last_fetch))) body1,
        t1 + max 0 (cfg.min_interval_seconds - (t1 - st0.last_fetch)),
        st0.renders + 1⟩) ∧
    Playwright.fetch cfg (Playwright.fetch cfg st0 url sel true t1 body1).2 url sel true
        t2 body2 =
      (body1, (Playwright.fetch cfg st0 url sel true t1 body1).2) := by
  have h1 : Playwright.fetch cfg st0 url sel true t1 body1 =
      (body1,
       ⟨write_cache st0.cache (cache_key url sel)
          (t1 + max 0 (cfg.min_interval_seconds - (t1 - st0.last_fetch))) body1,
        t1 + max 0 (cfg.min_interval_seconds - (t1 - st0.last_fetch)),
        st0.renders + 1⟩) := by
    simp only [Playwright.fetch]
    rw [hmiss]
    simp
  refine ⟨h1, ?_⟩
  rw [h1]
  simp only [Playwright.fetch]
  rw [read_after_write st0.cache (cache_key url sel)
    (t1 + max 0 (cfg.min_interval_seconds - (t1 - st0.last_fetch))) body1 t2 cfg.ttl_seconds]
  rw [if_neg hlive]
  simp

/-- C8 witness: a fresh fetcher, `ttl = 900`, `minInterval = 2`, calls at
`t = 10` and `t = 20`. -/
theorem C8_witness :
    Playwright.fetch ⟨900, 1, 2⟩ ⟨[], 0, 0⟩ "https://x.example" (some "sel") true 10 "BODY" =
      ("BODY", ⟨Playwright.write_cache [] (Playwright.cache_key "https://x.example" (some "sel"))
        (10 + max 0 (2 - (10 - 0))) "BODY", 10 + max 0 (2 - (10 - 0)), 0 + 1⟩) ∧
    Playwright.fetch ⟨900, 1, 2⟩
        (Playwright.fetch ⟨900, 1, 2⟩ ⟨[], 0, 0⟩ "https://x.example" (some "sel") true 10
          "BODY").2 "https://x.example" (some "sel") true 20 "BODY2" =
      ("BODY", (Playwright.fetch ⟨900, 1, 2⟩ ⟨[], 0, 0⟩ "https://x.example" (some "sel") true 10
        "BODY").2) :=
  C8_render_cache ⟨900, 1, 2⟩ ⟨[], 0, 0⟩ "https://x.example" (some "sel") 10 20 "BODY" "BODY2"
    rfl (by norm_num)

end CacheTheorems

section RetryTheorems

open Retry

/-- Behaviour of the modelled retry loop, for any starting attempt number:
at most `remaining` and at least one attempt; one backoff wait
(`backoff ^ attemptNumber`) per failed non-final attempt; and when every
permitted attempt fails, the surfaced error is the final attempt's. -/
theorem retryFrom_spec (responses : Nat → FetchOutcome) (backoff : ℚ) :
    ∀ remaining attempt, 1 ≤ remaining →
      (retryFrom responses backoff attempt remaining).attemptsMade ≤ remaining ∧
      1 ≤ (retryFrom responses backoff attempt remaining).attemptsMade ∧
      (retryFrom responses backoff attempt remaining).waits =
        (List.range ((retryFrom responses backoff attempt remaining).attemptsMade - 1)).map
          (fun i => backoff ^ (attempt + i)) ∧
      ((∀ i, i < remaining → ∃ e, responses (attempt + i) = .failure e) →
        ∃ e, responses (attempt + remaining - 1) = .failure e ∧
          (retryFrom responses backoff attempt remaining).result = .error e ∧
          (retryFrom responses backoff attempt remaining).attemptsMade = remaining) := by
  intro remaining
  induction remaining with
  | zero => intro attempt h; omega
  | succ rem ih =>
    intro attempt _
    rcases hresp : responses attempt with body | err
    · refine ⟨by simp [retryFrom, hresp], by simp [retryFrom, hresp],
        by simp [retryFrom, hresp], ?_⟩
      intro hall
      obtain ⟨e, he⟩ := hall 0 (by omega)
      rw [Nat.add_zero] at he
      rw [hresp] at he
      exact absurd he (by simp)
    · rcases rem with _ | rem2
      · refine ⟨by simp [retryFrom, hresp], by simp [retryFrom, hresp],
          by simp [retryFrom, hresp], ?_⟩
        intro _
        exact ⟨err, by simpa using hresp, by simp [retryFrom, hresp], by simp [retryFrom, hresp]⟩
      · obtain ⟨ih1, ih2, ih3, ih4⟩ := ih (attempt + 1) (by omega)
        have hunf : retryFrom responses backoff attempt (rem2 + 1 + 1) =
            ⟨(retryFrom responses backoff (attempt + 1) (rem2 + 1)).result,
             backoff ^ attempt :: (retryFrom responses backoff (attempt + 1) (rem2 + 1)).waits,
             (retryFrom responses backoff (attempt + 1) (rem2 + 1)).attemptsMade + 1⟩ := by
          rw [retryFrom, hresp]
        refine ⟨?_, ?_, ?_, ?_⟩
        · rw [hunf]; simpa using ih1
        · rw [hunf]; simp
        · rw [hunf]
          simp only []
          rw [ih3]
          have hn : (retryFrom responses backoff (attempt + 1) (rem2 + 1)).attemptsMade + 1 - 1 =
              ((retryFrom responses backoff (attempt + 1) (rem2 + 1)).attemptsMade - 1) + 1 := by
            omega
          rw [hn, List.range_succ_eq_map, List.map_cons, List.map_map]
          refine congrArg₂ _ (by rw [Nat.add_zero]) ?_
          refine List.map_congr_left ?_
          intro i _
          simp only [Function.comp, Nat.succ_eq_add_one, pow_succ, pow_add]
          ring
        · intro hall
          obtain ⟨e, he, hres, hn⟩ := ih4 (fun i hi => by
            obtain ⟨e, he⟩ := hall (1 + i) (by omega)
            exact ⟨e, by rw [← he]; ring_nf⟩)
          refine ⟨e, ?_, ?_, ?_⟩
          · rw [← he]
            congr 1
            omega
          · rw [hunf]; exact hres
          · rw [hunf]
            show (retryFrom responses backoff (attempt + 1) (rem2 + 1)).attemptsMade + 1 =
              rem2 + 1 + 1
            omega

/-- C9 (spec-modelled): `request_with_retry` makes at most `maxRetries`
attempts and terminates; each failed attempt that is followed by another
waits `backoffFactor ^ attemptNumber` (attempts numbered from 0), so the wait
list is exactly `[backoff^0, …, backoff^(attempts-2)]`; and when every
attempt fails, the call surfaces the final attempt's error. -/
theorem C9_retry (maxRetries : Nat) (backoff : ℚ) (responses : Nat → FetchOutcome)
    (hpos : 1 ≤ maxRetries) :
    (request_with_retry maxRetries backoff responses).attemptsMade ≤ maxRetries ∧
    (request_with_retry maxRetries backoff responses).waits =
      (List.range ((request_with_retry maxRetries backoff responses).attemptsMade - 1)).map
        (fun i => backoff ^ i) ∧
    ((∀ i, i < maxRetries → ∃ e, responses i = .failure e) →
      ∃ e, responses (maxRetries - 1) = .failure e ∧
        (request_with_retry maxRetries backoff responses).result = .error e ∧
        (request_with_retry maxRetries backoff responses).attemptsMade = maxRetries) := by
  obtain ⟨h1, _, h3, h4⟩ := retryFrom_spec responses backoff maxRetries 0 hpos
  refine ⟨h1, ?_, ?_⟩
  · rw [request_with_retry, h3]
    exact List.map_congr_left (fun i _ => by rw [Nat.zero_add])
  · intro hall
    obtain ⟨e, he, hres, hn⟩ := h4 (fun i hi => by simpa using hall i hi)
    exact ⟨e, by simpa using he, hres, hn⟩

/-- C9 witness: three attempts, all failing, backoff `3/2`: the call stops
after exactly 3 attempts, waits `[1, 3/2]`, and surfaces the final error. -/
theorem C9_witness :
    (Retry.request_with_retry 3 (3/2) (fun _ => .failure "err")).result = .error "err" ∧
    (Retry.request_with_retry 3 (3/2) (fun _ => .failure "err")).attemptsMade = 3 := by
  obtain ⟨e, he, hres, hn⟩ :=
    (C9_retry 3 (3/2) (fun _ => .failure "err") (by norm_num)).2.2
      (fun i _ => ⟨"err", rfl⟩)
  injection he with he'
  subst he'
  exact ⟨hres, hn⟩

end RetryTheorems
